import Mathlib

/-!
Verification development for the EEG KPI extraction core
(epoch segmentation + multi-domain feature extraction).

The Python sources are shallowly embedded:
* machine floats become exact rationals (`ℚ`); the few genuinely
  irrational values (square roots, natural logs) are kept symbolic in a
  small value language `FV` interpreted into `ℝ` by `FV.eval`;
* `float('nan')` becomes `FV.nan` (interpreted as `none`);
* Python dictionaries written once per key become association lists
  (`Row`), in insertion order;
* calls into external numeric libraries (scipy / antropy / fooof / mne)
  become fields of a `NumLib` record: a deterministic function of the
  call's arguments, returning `Except Unit _` where the source wraps the
  call in `try/except` or lets the exception propagate;
* Python `try/except` becomes the `Except Unit` monad.
-/

namespace EegKpi

/- Restore kernel reducibility of rational arithmetic inside this file so
that concrete instances of the embedded computations can be settled by
`decide`.  (The kernel itself never respects reducibility attributes;
this only lets elaboration see what the kernel will check.) -/
attribute [local semireducible] Rat.mul Rat.add Rat.sub Rat.inv Rat.ofScientific

/-- The `epsilon = 1e-10` division guard used throughout the feature code. -/
def eps : ℚ := 1 / 10 ^ 10

/-- Python `int()` applied to a rational (truncation toward zero). -/
def pyInt (q : ℚ) : ℤ := if 0 ≤ q then ⌊q⌋ else ⌈q⌉

/-- Python `range(0, stop, step)` for a positive `step`: the multiples of
`step` that are strictly below `stop`. -/
def pyRangeStep (stop step : ℕ) : List ℕ :=
  (List.range ((stop + step - 1) / step)).map (· * step)

/-- Window start offsets generated by the driver's inline segmenter
(`main.py`, `for i in range(0, len(data_filtered[0]) - window_samples,
step_samples)`). -/
def mainWindowStarts (nSamples windowSamples stepSamples : ℕ) : List ℕ :=
  pyRangeStep (nSamples - windowSamples) stepSamples

/-- Window start offsets of the fixed-length segmenter used by
`core_pipeline/m4_epoch.py` via `mne.make_fixed_length_epochs`: starts at
stride `stepSamples` from 0, keeping exactly the windows that fit inside
the recording (`start + windowSamples ≤ nSamples`). -/
def m4WindowStarts (nSamples windowSamples stepSamples : ℕ) : List ℕ :=
  (List.range (if windowSamples ≤ nSamples then
      (nSamples - windowSamples) / stepSamples + 1 else 0)).map (· * stepSamples)

/-! ### Floating-point values

Machine floats are modelled exactly: rationals for everything the code
computes by field arithmetic, and explicit symbolic nodes for the square
roots and natural logarithms it takes of rational quantities.  `nan` is
`np.nan`. -/

inductive FV where
  | nan : FV
  | val (q : ℚ)
  | sqrtv (q : ℚ)
  | logv (q : ℚ)
  | addv (a b : FV)
  | subv (a b : FV)
  | divv (a b : FV)
  deriving Repr, DecidableEq

/-- Interpretation of an `FV` into the reals; `none` is NaN; arithmetic on
NaN yields NaN. -/
noncomputable def FV.eval : FV → Option ℝ
  | .nan => none
  | .val q => some (q : ℝ)
  | .sqrtv q => some (Real.sqrt q)
  | .logv q => some (Real.log q)
  | .addv a b => match a.eval, b.eval with
      | some x, some y => some (x + y)
      | _, _ => none
  | .subv a b => match a.eval, b.eval with
      | some x, some y => some (x - y)
      | _, _ => none
  | .divv a b => match a.eval, b.eval with
      | some x, some y => some (x / y)
      | _, _ => none

/-- Syntactic NaN test.  The row values the extractors store are either
the literal `FV.nan` or NaN-free arithmetic trees, so this coincides with
the semantic NaN test `pandas` applies during aggregation. -/
def FV.isNan : FV → Bool
  | .nan => true
  | _ => false

/-- The NaN-excluding column mean `pandas.DataFrame.mean` performs during
epoch aggregation: NaN entries are skipped, an all-NaN column aggregates
to NaN, and the divisor is the non-NaN count. -/
def fvMean (l : List FV) : FV :=
  let vs := l.filter (fun v => !v.isNan)
  if vs.isEmpty then FV.nan
  else FV.divv (vs.foldr FV.addv (FV.val 0)) (FV.val (vs.length : ℚ))

instance {ε α : Type _} [DecidableEq ε] [DecidableEq α] :
    DecidableEq (Except ε α) := fun a b =>
  match a, b with
  | .error e, .error f => decidable_of_iff (e = f) (by simp)
  | .ok x, .ok y => decidable_of_iff (x = y) (by simp)
  | .error _, .ok _ => isFalse (by simp)
  | .ok _, .error _ => isFalse (by simp)

/-- A feature dictionary in insertion order (each key is written once per
construction site, mirroring the Python dicts). -/
abbrev Row := List (String × FV)

/-- The keys of a feature dictionary. -/
def rowKeys (r : Row) : List String := r.map Prod.fst

/-- Dictionary lookup. -/
def rlookup (r : Row) (k : String) : Option FV :=
  (r.find? (fun e => e.1 == k)).map Prod.snd

/-! ### Elementary numpy helpers -/

/-- `np.max` of a non-empty array (`np.max([])` raises; callers guard). -/
def listMax : List ℚ → ℚ
  | [] => 0
  | a :: t => t.foldl max a

/-- `np.min` of a non-empty array. -/
def listMin : List ℚ → ℚ
  | [] => 0
  | a :: t => t.foldl min a

/-- `np.mean` (callers only apply it to non-empty arrays on the paths the
claims exercise). -/
def qmean (l : List ℚ) : ℚ := l.sum / (l.length : ℚ)

/-- `np.var` (population variance, numpy's default `ddof=0`). -/
def qvar (l : List ℚ) : ℚ :=
  ((l.map (fun x => (x - qmean l) ^ 2)).sum) / (l.length : ℚ)

/-- `np.diff`. -/
def diffL : List ℚ → List ℚ
  | a :: b :: t => (b - a) :: diffL (b :: t)
  | _ => []

/-- `np.trapz(ys, dx=dx)`: composite trapezoid rule; 0 on fewer than two
samples, exactly as numpy. -/
def trapz (dx : ℚ) : List ℚ → ℚ
  | a :: b :: t => (a + b) / 2 * dx + trapz dx (b :: t)
  | _ => 0

/-- `np.cumsum`. -/
def cumsum (l : List ℚ) : List ℚ := (l.scanl (· + ·) 0).tail

/-- `np.argmax` (first index attaining the maximum, numpy's tie rule). -/
def argmaxIdx (l : List ℚ) : ℕ := l.indexOf (listMax l)

/-- `np.searchsorted(a, v)` with the default `side='left'` on a sorted
array: the count of entries strictly below `v`. -/
def searchsortedL (a : List ℚ) (v : ℚ) : ℕ := a.countP (fun x => decide (x < v))

/-- Peak-to-peak amplitude `np.ptp`. -/
def p2pQ (x : List ℚ) : ℚ := listMax x - listMin x

/-- Python slice `x[a:b]` for `0 ≤ a ≤ b` (clamped at the ends). -/
def pySlice (x : List ℚ) (a b : ℕ) : List ℚ := (x.drop a).take (b - a)

/-- Zero-crossing rate `((x[:-1] * x[1:]) < 0).sum() / (len(x) - 1)`. -/
def zcrQ (x : List ℚ) : ℚ :=
  (((x.zip x.tail).countP (fun p => decide (p.1 * p.2 < 0))) : ℚ) / ((x.length - 1 : ℕ) : ℚ)

/-- The one-sided frequency grid scipy's Welch/spectrogram/coherence
routines return for a given `nperseg` (and `nfft = nperseg`):
`k * sfreq / nperseg` for `k = 0 .. nperseg/2`. -/
def welchFreqs (sfreq : ℚ) (nperseg : ℕ) : List ℚ :=
  (List.range (nperseg / 2 + 1)).map (fun k : ℕ => (k : ℚ) * (sfreq / (nperseg : ℚ)))

/-- `Sxx[band_mask, :].mean(axis=0)`: per-column mean over the selected
frequency rows. -/
def colMeans (rows : List (List ℚ)) : List ℚ := (List.transpose rows).map qmean

/-! ### Configuration (config.py)

Two field names are shortened relative to `config.py` (`SAMPEN_R_RATIO`,
`POWER_VAR_OVERLAP_RATIO` become `sampenRFrac`, `powerVarOverlapFrac`). -/

structure Cfg where
  SAMPLE_RATE : ℚ
  CHANNELS : List String
  BANDS : List (String × ℚ × ℚ)
  WELCH_WINDOW_SEC : ℚ
  APERIODIC_FIT_RANGE_HZ : ℚ × ℚ
  /-- `None` models the attribute being absent from the config object, in
  which case the ERP-index `try` block in `get_A_features` fails and is
  caught. -/
  EPOCH_A_TMIN : Option ℚ
  ALPHA_BURST_THRESHOLD_SD : ℚ
  POWER_VAR_WINDOW_SEC : ℚ
  powerVarOverlapFrac : ℚ
  CONN_WINDOW_SEC : ℚ
  SAMPEN_M : ℕ
  sampenRFrac : ℚ
  deriving Repr

/-! ### External numeric libraries

Every call into scipy / antropy / fooof / mne-connectivity is a field of
this record: a deterministic function of the call's arguments.  A field
returns `Except Unit _` when the source either wraps the call in
`try/except` or lets a raised exception propagate; it returns a plain
value when the library call cannot observably raise (it yields NaN on
degenerate input instead, modelled by returning `FV`). -/

structure NumLib where
  /-- `scipy.signal.welch` PSD values on the grid `welchFreqs sfreq nperseg`. -/
  welchPsd : List ℚ → ℚ → ℕ → List ℚ
  /-- `antropy.spectral_entropy(psd, sf, method='welch', normalize=True)`. -/
  spectralEntropy : List ℚ → ℚ → FV
  /-- `FOOOF.fit` over the configured range; `.ok (offset, exponent)` on
  success, `.error` when the fit raises. -/
  fooofFit : List ℚ → List ℚ → ℚ × ℚ → Except Unit (ℚ × ℚ)
  /-- `scipy.stats.skew`. -/
  skew : List ℚ → Except Unit FV
  /-- `scipy.stats.kurtosis`. -/
  kurtosis : List ℚ → Except Unit FV
  /-- number of peaks returned by
  `scipy.signal.find_peaks(x, height=np.std(x) * 0.5)`. -/
  findPeaksCount : List ℚ → Except Unit ℕ
  /-- the alpha-burst `try` block up to counting rising-edge threshold
  crossings of the Hilbert envelope: arguments are the signal, the alpha
  band and the SD multiplier. -/
  burstStarts : List ℚ → ℚ × ℚ → ℚ → Except Unit ℕ
  /-- `scipy.signal.spectrogram` power matrix (rows indexed by the grid
  `welchFreqs sfreq nperseg`). -/
  spectrogramPsd : List ℚ → ℚ → ℕ → ℕ → Except Unit (List (List ℚ))
  /-- `antropy.sample_entropy(x, order, radius = frac * std(x))`; the last
  argument carries `(frac, var x)` since the radius is irrational. -/
  sampleEntropy : List ℚ → ℕ → ℚ × ℚ → FV
  /-- `antropy.higuchi_fd(x, kmax)`. -/
  higuchiFd : List ℚ → ℕ → FV
  /-- `antropy.lziv_complexity(bits, normalize=True)` on the mean-threshold
  binarisation. -/
  lziv : List Bool → FV
  /-- `antropy.detrended_fluctuation`. -/
  dfa : List ℚ → FV
  /-- `scipy.signal.coherence` magnitude-squared coherence values on the
  grid `welchFreqs sfreq (min nperseg len)`. -/
  coherenceVals : List ℚ → List ℚ → ℚ → ℕ → Except Unit (List ℚ)
  /-- whether `mne.connectivity.spectral_connectivity` imported. -/
  specConnAvail : Bool
  /-- `spectral_connectivity(..., method='plv', fmin, fmax, faverage=True)`. -/
  plv : List (List ℚ) → ℚ → ℚ × ℚ → Except Unit ℚ
  /-- `spectral_connectivity(..., method='wpli', ...)`. -/
  wpli : List (List ℚ) → ℚ → ℚ × ℚ → Except Unit ℚ
  /-- `np.corrcoef(x1, x2)[0, 1]` (the inner `try` catches any raise). -/
  corrcoef : List ℚ → List ℚ → Except Unit FV
  /-- `scipy.integrate.simpson(ys, x=xs)`. -/
  simpson : List ℚ → List ℚ → ℚ
  /-- `features.features_A.compute_time_features` (imported by
  `core_pipeline/feature_extractor.py`; the defining module revision is
  not among the sources, so only its interface is modelled). -/
  computeTime : List ℚ → ℕ → Except Unit Row
  /-- `features.features_B.compute_freq_features` (same situation). -/
  computeFreq : List ℚ → ℕ → Except Unit Row
  /-- `features.features_C.compute_nonlinear_features` (same situation). -/
  computeNonlinear : List ℚ → ℕ → Except Unit Row

/-- The ambient process environment: the deterministic numeric libraries
plus whatever randomness the interpreter could offer.  The extraction
code never consults the seed. -/
structure Env where
  lib : NumLib
  rngSeed : ℕ

/-! ### Named sub-features (features_A.py / features_B.py) -/

/-- `str.lower()` (ASCII), written so the kernel can evaluate it. -/
def lowerStr (s : String) : String := ⟨s.data.map Char.toLower⟩

/-- Hjorth mobility `np.sqrt(var(diff(x)) / (var(x) + epsilon))`
(features_A.py). -/
def hjorth_mobility (x : List ℚ) : FV :=
  .sqrtv (qvar (diffL x) / (qvar x + eps))

/-- Hjorth complexity `mobility(diff(x)) / (mobility(x) + epsilon)` where
`mobility(diff(x)) = sqrt(var(diff(diff(x))) / (var(diff(x)) + epsilon))`
(features_A.py). -/
def hjorth_complexity (x : List ℚ) : FV :=
  .divv (.sqrtv (qvar (diffL (diffL x)) / (qvar (diffL x) + eps)))
        (.addv (.sqrtv (qvar (diffL x) / (qvar x + eps))) (.val eps))

/-- Relative band power `(abs_p / (total_power_bands + epsilon)) * 100.0`
(features_B.py). -/
def rel_p (absP total : ℚ) : ℚ := absP / (total + eps) * 100

/-- `safe_log` from features/utils.py: `np.log(np.abs(d) + epsilon)`. -/
def safe_log (d : ℚ) : FV := .logv (|d| + eps)

/-- The once-per-window asymmetry value
`safe_log(power_R) - safe_log(power_L)` (features_B.py, B-4 part 2). -/
def b_asym (pL pR : ℚ) : FV := .subv (safe_log pR) (safe_log pL)

/-- Band-limited PSD values: `psd[band_mask]` for
`band_mask = (freqs >= f_low) & (freqs < f_high)`. -/
def bandMaskVals (freqs psd : List ℚ) (lo hi : ℚ) : List ℚ :=
  ((freqs.zip psd).filter (fun p => decide (lo ≤ p.1) && decide (p.1 < hi))).map Prod.snd

/-- Absolute band power (features_B.py, B-1): `0.0` when the band mask is
empty, else `np.trapz(psd[band_mask], dx=freq_res)`. -/
def absPowerQ (freqs psd : List ℚ) (freqRes lo hi : ℚ) : ℚ :=
  let vals := bandMaskVals freqs psd lo hi
  if vals.isEmpty then 0 else trapz freqRes vals

/-- Intra-channel band ratios (features_B.py, B-4): theta/beta,
engagement, delta/alpha, each epsilon-guarded. -/
def ratioTbr (pTheta pBeta : ℚ) : ℚ := pTheta / (pBeta + eps)
def ratioEngagement (pBeta pAlpha pTheta : ℚ) : ℚ := pBeta / (pAlpha + pTheta + eps)
def ratioDar (pDelta pAlpha : ℚ) : ℚ := pDelta / (pAlpha + eps)

/-! ### Family A: get_A_features (features_A.py) -/

/-- The per-channel body of the Family A loop.  The empty check models
`np.max` raising on an empty slice; the scipy calls (`skew`, `kurtosis`,
`find_peaks`) propagate their exceptions to the caller uncaught, exactly
as in the source, where `get_A_features` has no per-channel handler. -/
def get_A_channel (lib : NumLib) (cfg : Cfg) (zeroIdx p3s p3e lpps lppe : ℕ)
    (ch : String) (x : List ℚ) : Except Unit Row := do
  if x.isEmpty then Except.error () else
  let sfreq := cfg.SAMPLE_RATE
  let dx := diffL x
  let sk ← lib.skew x
  let ku ← lib.kurtosis x
  let pk ← lib.findPeaksCount x
  pure ([(ch ++ "_A_amp_max", FV.val (listMax x)),
      (ch ++ "_A_amp_min", FV.val (listMin x)),
      (ch ++ "_A_amp_p2p", FV.val (listMax x - listMin x)),
      (ch ++ "_A_amp_mean", FV.val (qmean x)),
      (ch ++ "_A_amp_rms", FV.sqrtv (qmean (x.map (fun v => v ^ 2)))),
      (ch ++ "_A_zcr", FV.val (zcrQ x)),
      (ch ++ "_A_slope_mean", FV.val (qmean (dx.map abs))),
      (ch ++ "_A_hjorth_mobility", hjorth_mobility x),
      (ch ++ "_A_num_peaks", FV.val (pk : ℚ)),
      (ch ++ "_A_auc", FV.val (trapz (1 / sfreq) (x.map abs))),
      (ch ++ "_A_stat_variance", FV.val (qvar x)),
      (ch ++ "_A_stat_skewness", sk),
      (ch ++ "_A_stat_kurtosis", ku),
      (ch ++ "_A_hjorth_complexity", hjorth_complexity x)]
    ++ (let xp3 := pySlice x p3s p3e
        if xp3.length > 0 then
          [(ch ++ "_A_erp_p3_peak", FV.val (listMax xp3)),
           (ch ++ "_A_erp_p3_latency_ms",
             FV.val ((((argmaxIdx xp3 + p3s : ℕ) : ℚ) - (zeroIdx : ℚ)) / sfreq * 1000))]
        else [])
    ++ (let xlpp := pySlice x lpps lppe
        if xlpp.length > 0 then
          [(ch ++ "_A_erp_lpp_mean", FV.val (qmean xlpp)),
           (ch ++ "_A_erp_lpp_auc", FV.val (trapz (1 / sfreq) (xlpp.map abs)))]
        else []))

/-- `for i, ch_name in enumerate(ch_names): x = epoch_data[i, :]`; a
missing row raises `IndexError`, uncaught. -/
def overChannelsAux (data : List (List ℚ))
    (f : String → List ℚ → Except Unit Row) :
    List String → ℕ → Except Unit Row
  | [], _ => pure []
  | ch :: rest, i => do
    match data.get? i with
    | none => Except.error ()
    | some x => do
      let r ← f ch x
      let rs ← overChannelsAux data f rest (i + 1)
      pure (r ++ rs)

/-- `get_A_features` (features_A.py).  If the ERP-index computation fails
(the config lacks `EPOCH_A_TMIN`), the handler logs and `return`s with no
keys written and no exception. -/
def get_A_features (lib : NumLib) (epochData : List (List ℚ)) (cfg : Cfg) :
    Except Unit Row :=
  match cfg.EPOCH_A_TMIN with
  | none => pure []
  | some tmin =>
    let sfreq := cfg.SAMPLE_RATE
    let zeroIdx := (pyInt (|tmin| * sfreq)).toNat
    let p3s := zeroIdx + (pyInt (1 / 4 * sfreq)).toNat
    let p3e := zeroIdx + (pyInt (2 / 5 * sfreq)).toNat
    let lpps := zeroIdx + (pyInt (2 / 5 * sfreq)).toNat
    let lppe := zeroIdx + (pyInt (1 * sfreq)).toNat
    overChannelsAux epochData (get_A_channel lib cfg zeroIdx p3s p3e lpps lppe)
      cfg.CHANNELS 0

/-! ### Family B: get_B_features (features_B.py) -/

/-- `band_powers_per_channel[ch_name].get(band, 0)`. -/
def bpGet (bp : List (String × ℚ)) (name : String) : ℚ :=
  ((bp.find? (fun b => b.1 == name)).map Prod.snd).getD 0

/-- The per-channel body of `get_B_features`.  Returns the written row
together with this channel's absolute band powers (the
`band_powers_per_channel` entry).  Raises (uncaught in the source) when
`freqs[1]` does not exist or when `bands['Alpha']` is missing. -/
def get_B_channel (lib : NumLib) (cfg : Cfg) (ch : String) (x : List ℚ) :
    Except Unit (Row × List (String × ℚ)) := do
  let sfreq := cfg.SAMPLE_RATE
  let nperseg0 := (pyInt (sfreq * cfg.WELCH_WINDOW_SEC)).toNat
  let nperseg := if x.length < nperseg0 then x.length else nperseg0
  let freqs := welchFreqs sfreq nperseg
  let psd := lib.welchPsd x sfreq nperseg
  let freqRes ← (match freqs.get? 1, freqs.get? 0 with
    | some f1, some f0 => pure (f1 - f0)
    | _, _ => Except.error ())
  let absPowers := cfg.BANDS.map
    (fun b => (b.1, absPowerQ freqs psd freqRes b.2.1 b.2.2))
  let total := (absPowers.map Prod.snd).sum
  let powRow := [(ch ++ "_B_pow_total", FV.val total)] ++
    absPowers.flatMap (fun b =>
      [(ch ++ "_B_pow_abs_" ++ lowerStr b.1, FV.val b.2),
       (ch ++ "_B_pow_rel_" ++ lowerStr b.1, FV.val (rel_p b.2 total))])
  let alphaBand ← (match cfg.BANDS.find? (fun b => b.1 == "Alpha") with
    | some b => pure b.2
    | none => Except.error ())
  let alphaPairs := (freqs.zip psd).filter
    (fun p => decide (alphaBand.1 ≤ p.1) && decide (p.1 < alphaBand.2))
  let peakRow := if alphaPairs.length > 0 then
      [(ch ++ "_B_loc_peak_alpha_hz",
        FV.val ((alphaPairs.map Prod.fst).getD (argmaxIdx (alphaPairs.map Prod.snd)) 0))]
    else []
  let psdCumsum := (cumsum psd).map (fun s => s * freqRes)
  let totalPsd := psdCumsum.getLastD 0
  let sefIdx := searchsortedL psdCumsum (9 / 10 * totalPsd)
  let sefRow := [(ch ++ "_B_loc_sef90_hz",
    match freqs.get? sefIdx with
    | some f => FV.val f
    | none => FV.nan)]
  let centRow := [(ch ++ "_B_loc_centroid_hz",
    FV.val (((freqs.zip psd).map (fun p => p.1 * p.2)).sum / (psd.sum + eps)))]
  let entRow := [(ch ++ "_B_shape_spec_ent", lib.spectralEntropy psd sfreq)]
  let fooofRow := match lib.fooofFit freqs psd cfg.APERIODIC_FIT_RANGE_HZ with
    | .ok ap => [(ch ++ "_B_shape_1f_exponent", FV.val ap.2),
                 (ch ++ "_B_shape_1f_offset", FV.val ap.1)]
    | .error _ => [(ch ++ "_B_shape_1f_exponent", FV.nan),
                   (ch ++ "_B_shape_1f_offset", FV.nan)]
  let ratioRow := [(ch ++ "_B_ratio_tbr",
      FV.val (ratioTbr (bpGet absPowers "Theta") (bpGet absPowers "Beta"))),
    (ch ++ "_B_ratio_engagement",
      FV.val (ratioEngagement (bpGet absPowers "Beta") (bpGet absPowers "Alpha")
        (bpGet absPowers "Theta"))),
    (ch ++ "_B_ratio_dar",
      FV.val (ratioDar (bpGet absPowers "Delta") (bpGet absPowers "Alpha")))]
  pure (powRow ++ peakRow ++ sefRow ++ centRow ++ entRow ++ fooofRow ++ ratioRow,
        absPowers)

/-- Channel loop of `get_B_features`, collecting each channel's band
powers in channel order. -/
def get_B_channelsAux (lib : NumLib) (cfg : Cfg) (data : List (List ℚ)) :
    List String → ℕ → Except Unit (Row × List (List (String × ℚ)))
  | [], _ => pure ([], [])
  | ch :: rest, i => do
    match data.get? i with
    | none => Except.error ()
    | some x => do
      let (r, bp) ← get_B_channel lib cfg ch x
      let (rs, bps) ← get_B_channelsAux lib cfg data rest (i + 1)
      pure (r ++ rs, bp :: bps)

/-- The once-per-window asymmetry entries (features_B.py, part 2): written
only for a 2-channel configuration, from the two channels' stored band
powers. -/
def asymBlock (bpL bpR : List (String × ℚ)) : Row :=
  [("B_asym_alpha_ln_R-L", b_asym (bpGet bpL "Alpha") (bpGet bpR "Alpha")),
   ("B_asym_beta_ln_R-L", b_asym (bpGet bpL "Beta") (bpGet bpR "Beta"))]

/-- `get_B_features` (features_B.py). -/
def get_B_features (lib : NumLib) (epochData : List (List ℚ)) (cfg : Cfg) :
    Except Unit Row := do
  let (row, bps) ← get_B_channelsAux lib cfg epochData cfg.CHANNELS 0
  if cfg.CHANNELS.length = 2 then
    pure (row ++ asymBlock (bps.getD 0 []) (bps.getD 1 []))
  else
    pure row

/-! ### Family C: get_C_features (features_C.py) -/

/-- `nperseg = min(int(sfreq * POWER_VAR_WINDOW_SEC), len(x))` of the
power-variability spectrogram. -/
def npsOf (cfg : Cfg) (x : List ℚ) : ℕ :=
  min (pyInt (cfg.SAMPLE_RATE * cfg.POWER_VAR_WINDOW_SEC)).toNat x.length

/-- `noverlap = int(nperseg * POWER_VAR_OVERLAP_RATIO)` of the
power-variability spectrogram. -/
def novOf (cfg : Cfg) (x : List ℚ) : ℕ :=
  (pyInt ((npsOf cfg x : ℚ) * cfg.powerVarOverlapFrac)).toNat

/-- C-1 body for one channel: the alpha-burst block (whose `try` also
covers the `bands['Alpha']` lookup) and the power-variability block.  The
power-variability handler only logs: on an exception no `_C_dyn_var_*`
key is written at all. -/
def get_C_dyn_channel (lib : NumLib) (cfg : Cfg) (ch : String) (x : List ℚ) :
    Row :=
  let sfreq := cfg.SAMPLE_RATE
  let durationSec := (x.length : ℚ) / sfreq
  let burstOutcome : Except Unit ℕ :=
    match cfg.BANDS.find? (fun b => b.1 == "Alpha") with
    | some b => lib.burstStarts x b.2 cfg.ALPHA_BURST_THRESHOLD_SD
    | none => Except.error ()
  let burstRow := [(ch ++ "_C_dyn_alpha_burst_rate_hz",
    match burstOutcome with
    | .ok cnt => FV.val ((cnt : ℚ) / durationSec)
    | .error _ => FV.nan)]
  let npsC := npsOf cfg x
  let novC := novOf cfg x
  let specRow := match lib.spectrogramPsd x sfreq npsC novC with
    | .ok sxx =>
      let sgFreqs := welchFreqs sfreq npsC
      cfg.BANDS.map (fun b =>
        let rows := ((sgFreqs.zip sxx).filter
          (fun p => decide (b.2.1 ≤ p.1) && decide (p.1 < b.2.2))).map Prod.snd
        if rows.length > 0 then
          (ch ++ "_C_dyn_var_" ++ lowerStr b.1, FV.val (qvar (colMeans rows)))
        else
          (ch ++ "_C_dyn_var_" ++ lowerStr b.1, FV.val 0))
    | .error _ => []
  burstRow ++ specRow

/-- C-2 body for one channel (the antropy estimators; they return NaN on
degenerate input rather than raising). -/
def get_C_comp_channel (lib : NumLib) (cfg : Cfg) (ch : String) (x : List ℚ) :
    Row :=
  [(ch ++ "_C_comp_sampen",
     lib.sampleEntropy x cfg.SAMPEN_M (cfg.sampenRFrac, qvar x)),
   (ch ++ "_C_comp_higuchi_fd", lib.higuchiFd x 10),
   (ch ++ "_C_comp_lzc_norm",
     lib.lziv (x.map (fun v => decide (qmean x < v)))),
   (ch ++ "_C_comp_dfa_exp", lib.dfa x)]

/-- C-3: the between-channel block, run only for a 2-channel
configuration.  `scipy.signal.coherence` is called unguarded, so its
exception propagates; a band with an empty mask stores `0.0`.  PLV/wPLI
keys are written only when `spectral_connectivity` imported; a failed
call stores NaN for both keys of that band. -/
def get_C_conn (lib : NumLib) (cfg : Cfg) (x1 x2 : List ℚ) :
    Except Unit Row := do
  let sfreq := cfg.SAMPLE_RATE
  let nps := min (pyInt (sfreq * cfg.CONN_WINDOW_SEC)).toNat x1.length
  let cxy ← lib.coherenceVals x1 x2 sfreq nps
  let fcoh := welchFreqs sfreq nps
  let cohRow := cfg.BANDS.map (fun b =>
    let vals := ((fcoh.zip cxy).filter
      (fun p => decide (b.2.1 ≤ p.1) && decide (p.1 < b.2.2))).map Prod.snd
    if vals.length > 0 then
      ("C_conn_coh_" ++ lowerStr b.1, FV.val (qmean vals))
    else
      ("C_conn_coh_" ++ lowerStr b.1, FV.val 0))
  let plvRow := if lib.specConnAvail then
      cfg.BANDS.flatMap (fun b =>
        match lib.plv [x1, x2] sfreq b.2, lib.wpli [x1, x2] sfreq b.2 with
        | .ok p, .ok w =>
          [("C_conn_plv_" ++ lowerStr b.1, FV.val p),
           ("C_conn_wpli_" ++ lowerStr b.1, FV.val w)]
        | _, _ =>
          [("C_conn_plv_" ++ lowerStr b.1, FV.nan),
           ("C_conn_wpli_" ++ lowerStr b.1, FV.nan)])
    else []
  pure (cohRow ++ plvRow)

/-- Total (never-raising) channel loop for the C-1 and C-2 passes. -/
def overChannelsTotal (data : List (List ℚ)) (f : String → List ℚ → Row) :
    List String → ℕ → Except Unit Row
  | [], _ => pure []
  | ch :: rest, i => do
    match data.get? i with
    | none => Except.error ()
    | some x => do
      let rs ← overChannelsTotal data f rest (i + 1)
      pure (f ch x ++ rs)

/-- `get_C_features` (features_C.py): the C-1 pass over all channels,
then the C-2 pass over all channels, then the 2-channel connectivity
block. -/
def get_C_features (lib : NumLib) (epochData : List (List ℚ)) (cfg : Cfg) :
    Except Unit Row := do
  let dynRow ← overChannelsTotal epochData (get_C_dyn_channel lib cfg)
    cfg.CHANNELS 0
  let compRow ← overChannelsTotal epochData (get_C_comp_channel lib cfg)
    cfg.CHANNELS 0
  if cfg.CHANNELS.length = 2 then
    match epochData.get? 0, epochData.get? 1 with
    | some x1, some x2 => do
      let connRow ← get_C_conn lib cfg x1 x2
      pure (dynRow ++ compRow ++ connRow)
    | _, _ => Except.error ()
  else
    pure (dynRow ++ compRow)

/-! ### The M5 manager (features/m5_extract_features.py) -/

/-- One labelled window handed to the manager. -/
structure EpochIn where
  data : List (List ℚ)
  label : ℤ

/-- The combined per-window body of the manager's `try` block: metadata,
then Families A, B and C accumulated into one dictionary. -/
def m5WindowRow (lib : NumLib) (cfg : Cfg) (i : ℕ) (e : EpochIn) :
    Except Unit Row := do
  let a ← get_A_features lib e.data cfg
  let b ← get_B_features lib e.data cfg
  let c ← get_C_features lib e.data cfg
  pure ([("epoch_id", FV.val (i : ℚ)), ("label", FV.val (e.label : ℚ))]
    ++ a ++ b ++ c)

/-- `extract_features_from_epochs` (m5_extract_features.py): each window
is processed inside one `try`; on success the row is appended, on any
exception the error is logged and the window is skipped. -/
def extract_features_from_epochs (lib : NumLib) (epochs : List EpochIn)
    (cfg : Cfg) : List Row :=
  epochs.enum.filterMap (fun p =>
    match m5WindowRow lib cfg p.1 p.2 with
    | .ok r => some r
    | .error _ => none)

/-! ### Family D: compute_cross_features (features_D.py) -/

/-- The band dictionary hard-coded in features_D.py.  Note its masks are
inclusive at the upper edge (`freqs <= fmax`), unlike features_B/C. -/
def dBands : List (String × ℚ × ℚ) :=
  [("delta", 1 / 2, 4), ("theta", 4, 8), ("alpha", 8, 13),
   ("beta", 13, 30), ("gamma", 30, 50)]

/-- The per-band power asymmetry of features_D.py:
`np.log(power_ch2) - np.log(power_ch1)` guarded by a positivity check
(NaN when either power is non-positive); no epsilon is added inside the
logarithms here. -/
def d_asym (p1 p2 : ℚ) : FV :=
  if 0 < p1 ∧ 0 < p2 then .subv (.logv p2) (.logv p1) else .nan

/-- The outer `except` branch of compute_cross_features: every one of the
11 keys set to NaN. -/
def allNanD : Row :=
  (dBands.flatMap (fun b =>
    [("coh_" ++ b.1, FV.nan), ("asym_power_" ++ b.1, FV.nan)]))
  ++ [("pearson_corr", FV.nan)]

/-- `compute_cross_features(data_ch1, data_ch2, sr)` (features_D.py).
`nperseg = int(sr * 2)`; scipy clamps it to the signal length when
longer, which fixes the frequency grids. -/
def compute_cross_features (lib : NumLib) (x1 x2 : List ℚ) (sr : ℚ) : Row :=
  let nperseg := (pyInt (sr * 2)).toNat
  let grid := welchFreqs sr (min nperseg x1.length)
  match (do
    let cxy ← lib.coherenceVals x1 x2 sr nperseg
    let cohRow := dBands.map (fun b =>
      let vals := ((grid.zip cxy).filter
        (fun p => decide (b.2.1 ≤ p.1) && decide (p.1 ≤ b.2.2))).map Prod.snd
      if vals.length > 0 then ("coh_" ++ b.1, FV.val (qmean vals))
      else ("coh_" ++ b.1, FV.nan))
    let peRow := [("pearson_corr",
      match lib.corrcoef x1 x2 with
      | .ok v => v
      | .error _ => FV.nan)]
    let psd1 := lib.welchPsd x1 sr nperseg
    let psd2 := lib.welchPsd x2 sr nperseg
    let asymRow := dBands.map (fun b =>
      let pairs1 := (grid.zip psd1).filter
        (fun p => decide (b.2.1 ≤ p.1) && decide (p.1 ≤ b.2.2))
      let pairs2 := (grid.zip psd2).filter
        (fun p => decide (b.2.1 ≤ p.1) && decide (p.1 ≤ b.2.2))
      if pairs1.length > 0 then
        ("asym_power_" ++ b.1,
          d_asym (lib.simpson (pairs1.map Prod.snd) (pairs1.map Prod.fst))
                 (lib.simpson (pairs2.map Prod.snd) (pairs2.map Prod.fst)))
      else ("asym_power_" ++ b.1, FV.nan))
    pure (cohRow ++ peRow ++ asymRow) : Except Unit Row) with
  | .ok r => r
  | .error _ => allNanD

/-! ### The recording-level engine (core_pipeline/feature_extractor.py) -/

/-- Subject / Condition / Trial_No metadata of a recording. -/
structure MetaData where
  subject : String
  condition : ℤ
  trialNo : ℤ
  deriving Repr, DecidableEq

/-- One output row: metadata plus the KPI dictionary. -/
structure ResultRow where
  meta : MetaData
  kpis : Row
  deriving Repr, DecidableEq

/-- `_get_all_kpi_columns` (core_pipeline/feature_extractor.py): the fixed
103-column KPI schema. -/
def aCols : List String :=
  ["amp_max", "amp_min", "amp_p2p", "amp_mean", "amp_rms",
   "stat_mean", "stat_std", "stat_variance", "stat_median",
   "stat_skewness", "stat_kurtosis",
   "zcr", "slope_mean", "peak_count", "peak_mean_height",
   "hjorth_mobility", "hjorth_complexity"]

def bCols : List String :=
  ["pow_total",
   "pow_abs_delta", "pow_abs_theta", "pow_abs_alpha", "pow_abs_beta",
   "pow_abs_gamma",
   "pow_rel_delta", "pow_rel_theta", "pow_rel_alpha", "pow_rel_beta",
   "pow_rel_gamma",
   "peak_freq_hz", "centroid_hz", "sef90_hz", "spec_entropy",
   "spec_flatness",
   "aperiodic_exponent", "aperiodic_offset",
   "alpha_beta_ratio", "theta_beta_ratio"]

def cCols : List String :=
  ["sampen", "spec_ent", "perm_ent", "svd_ent",
   "higuchi_fd", "petrosian_fd", "katz_fd",
   "lzc", "dfa"]

def dCols : List String :=
  ["coh_delta", "coh_theta", "coh_alpha", "coh_beta", "coh_gamma",
   "pearson_corr",
   "asym_power_delta", "asym_power_theta", "asym_power_alpha",
   "asym_power_beta", "asym_power_gamma"]

def all_kpi_columns : List String :=
  ((aCols ++ bCols ++ cCols).map (fun c => "Ch1_" ++ c))
  ++ ((aCols ++ bCols ++ cCols).map (fun c => "Ch2_" ++ c))
  ++ (dCols.map (fun c => "Cross_" ++ c))

/-- `_return_nan_row`: metadata preserved, every KPI column present and
NaN. -/
def return_nan_row (m : MetaData) : ResultRow :=
  ⟨m, all_kpi_columns.map (fun c => (c, FV.nan))⟩

/-- The per-epoch `try` body of `extract_features`: the six per-channel
family calls, the cross-channel call, and prefixed merging.  A missing
channel row raises `IndexError`, caught by the surrounding handler. -/
def epochKpis (lib : NumLib) (sr : ℕ) (epochData : List (List ℚ)) :
    Except Unit Row := do
  let ch1 ← (match epochData.get? 0 with
    | some x => pure x
    | none => Except.error ())
  let ch2 ← (match epochData.get? 1 with
    | some x => pure x
    | none => Except.error ())
  let a1 ← lib.computeTime ch1 sr
  let b1 ← lib.computeFreq ch1 sr
  let c1 ← lib.computeNonlinear ch1 sr
  let a2 ← lib.computeTime ch2 sr
  let b2 ← lib.computeFreq ch2 sr
  let c2 ← lib.computeNonlinear ch2 sr
  let d := compute_cross_features lib ch1 ch2 (sr : ℚ)
  pure (((a1 ++ b1 ++ c1).map (fun e => ("Ch1_" ++ e.1, e.2)))
    ++ ((a2 ++ b2 ++ c2).map (fun e => ("Ch2_" ++ e.1, e.2)))
    ++ (d.map (fun e => ("Cross_" ++ e.1, e.2))))

/-- Column union in first-seen order (how `pandas.DataFrame` assembles
columns from a list of dicts). -/
def unionKeys (rows : List Row) : List String :=
  rows.foldl (fun acc r =>
    acc ++ ((r.map Prod.fst).filter (fun k => decide (k ∉ acc)))) []

/-- `pd.DataFrame(epoch_dicts).mean(axis=0)`: per-column NaN-excluding
mean; a column missing from some epoch dict is NaN there and skipped. -/
def aggregateRows (rows : List Row) : Row :=
  (unionKeys rows).map (fun k =>
    (k, fvMean (rows.filterMap (fun r => rlookup r k))))

/-- `extract_features(epochs, subject, condition, trial_no)`
(core_pipeline/feature_extractor.py): NaN row on zero epochs; per-epoch
failures are skipped; NaN row when every epoch failed; otherwise the
NaN-excluding epoch mean merged with the metadata. -/
def extract_features (lib : NumLib) (epochsData : List (List (List ℚ)))
    (sr : ℕ) (m : MetaData) : ResultRow :=
  if epochsData.length = 0 then return_nan_row m
  else
    let epochDicts := epochsData.filterMap (fun e => (epochKpis lib sr e).toOption)
    if epochDicts.isEmpty then return_nan_row m
    else ⟨m, aggregateRows epochDicts⟩

/-! ### Artifact rejection and viability (core/cleaner.py and main.py) -/

/-- `clean_epochs` (core/cleaner.py): MNE `drop_bad` with
`reject=dict(eeg=threshold_uv * 1e-6)` drops a window when any channel's
peak-to-peak exceeds the threshold; fewer than 3 survivors returns
`None` (a signalled skip), never an exception. -/
def clean_epochs (epochs : List (List (List ℚ))) (thresholdUv : ℚ) :
    Option (List (List (List ℚ))) :=
  let thresholdV := thresholdUv * (1 / 10 ^ 6)
  let kept := epochs.filter
    (fun w => decide (¬ ∃ chx ∈ w, thresholdV < p2pQ chx))
  if kept.length < 3 then none else some kept

/-- The driver's inline segmentation (main.py, Step 3): slice both
channels at each generated start offset. -/
def mainSegment (ch1 ch2 : List ℚ) (w s : ℕ) : List (List ℚ × List ℚ) :=
  (mainWindowStarts ch1.length w s).map
    (fun t => ((ch1.drop t).take w, (ch2.drop t).take w))

/-- main.py Steps 3-5 on the filtered two-channel signal: segmentation,
per-window peak-to-peak rejection (threshold in µV, no unit conversion
here), the `< 3` viability check, then `extract_features`.  Each early
exit returns the all-NaN metadata row of `_return_nan_metadata`, whose
column list coincides with `_get_all_kpi_columns`. -/
def mainProcessRecording (lib : NumLib) (ch1 ch2 : List ℚ)
    (windowSec overlapSec : ℚ) (sr : ℕ) (thrUv : ℚ) (m : MetaData) :
    ResultRow :=
  let w := (pyInt (windowSec * sr)).toNat
  let s := w - (pyInt (overlapSec * sr)).toNat
  let wins := mainSegment ch1 ch2 w s
  if wins.isEmpty then return_nan_row m
  else
    let kept := wins.filter
      (fun p => decide (¬ (thrUv < p2pQ p.1 ∨ thrUv < p2pQ p.2)))
    if kept.length < 3 then return_nan_row m
    else extract_features lib (kept.map (fun p => [p.1, p.2])) sr m

/-- The same computation reading its libraries from the ambient
environment; the seed is available but never consulted. -/
def mainProcessRecordingEnv (env : Env) (ch1 ch2 : List ℚ)
    (windowSec overlapSec : ℚ) (sr : ℕ) (thrUv : ℚ) (m : MetaData) :
    ResultRow :=
  mainProcessRecording env.lib ch1 ch2 windowSec overlapSec sr thrUv m

/-! ### Concrete instantiations used by witnesses and counterexamples -/

/-- A benign concrete library: every call succeeds with simple values of
the right shape. -/
def lib0 : NumLib where
  welchPsd := fun _ _ n => List.replicate (n / 2 + 1) 1
  spectralEntropy := fun _ _ => FV.val 0
  fooofFit := fun _ _ _ => .ok (0, 1)
  skew := fun _ => .ok (FV.val 0)
  kurtosis := fun _ => .ok (FV.val 0)
  findPeaksCount := fun _ => .ok 0
  burstStarts := fun _ _ _ => .ok 0
  spectrogramPsd := fun _ _ n _ => .ok (List.replicate (n / 2 + 1) [1, 1])
  sampleEntropy := fun _ _ _ => FV.val 0
  higuchiFd := fun _ _ => FV.val 1
  lziv := fun _ => FV.val 0
  dfa := fun _ => FV.val (1 / 2)
  coherenceVals := fun x1 _ _ n => .ok (List.replicate (min n x1.length / 2 + 1) 1)
  specConnAvail := false
  plv := fun _ _ _ => .ok 0
  wpli := fun _ _ _ => .ok 0
  corrcoef := fun _ _ => .ok (FV.val 1)
  simpson := fun ys _ => ys.sum
  computeTime := fun x _ =>
    if x.isEmpty then .error () else .ok [("amp_max", FV.val (listMax x))]
  computeFreq := fun _ _ => .ok [("pow_total", FV.val 1)]
  computeNonlinear := fun _ _ => .ok [("sampen", FV.val 0)]

/-- `lib0` with `scipy.stats.skew` raising (a Family A library call). -/
def libAfail : NumLib := { lib0 with skew := fun _ => .error () }

/-- `lib0` with the spectrogram raising on one specific signal. -/
def libSpecFail : NumLib :=
  { lib0 with spectrogramPsd := fun x _ n _ =>
      if x = List.replicate 8 1 then .error ()
      else .ok (List.replicate (n / 2 + 1) [1, 1]) }

/-- `lib0` with `scipy.signal.coherence` raising. -/
def libCohFail : NumLib :=
  { lib0 with coherenceVals := fun _ _ _ _ => .error () }

/-- `lib0` with an identically-zero Welch PSD (what scipy returns for a
constant signal after its default detrending). -/
def libZeroPsd : NumLib :=
  { lib0 with welchPsd := fun _ _ n => List.replicate (n / 2 + 1) 0 }

/-- A small single-channel configuration (sample rate 4 Hz so that the
Welch grid is `[0, 1, 2]`; the Alpha band mask is then empty). -/
def cfg0 : Cfg where
  SAMPLE_RATE := 4
  CHANNELS := ["Fp1"]
  BANDS := [("Delta", 1, 4), ("Alpha", 8, 13)]
  WELCH_WINDOW_SEC := 1
  APERIODIC_FIT_RANGE_HZ := (1, 30)
  EPOCH_A_TMIN := some 0
  ALPHA_BURST_THRESHOLD_SD := 1
  POWER_VAR_WINDOW_SEC := 1
  powerVarOverlapFrac := 1 / 2
  CONN_WINDOW_SEC := 1
  SAMPEN_M := 2
  sampenRFrac := 1 / 5

/-! ### The key schemas of the M5 families

These functions describe, purely in terms of the configuration, the
channel sample counts, and the success bits of the guarded spectrogram
calls, the key lists the family extractors write.  They are used to
settle the schema-invariance claim. -/

/-- Keys written by the Family A channel body (a function of the channel
name, its sample count, and the config-derived ERP slice indices). -/
def aChanKeys (p3s p3e lpps lppe : ℕ) (ch : String) (n : ℕ) : List String :=
  [ch ++ "_A_amp_max", ch ++ "_A_amp_min", ch ++ "_A_amp_p2p",
   ch ++ "_A_amp_mean", ch ++ "_A_amp_rms", ch ++ "_A_zcr",
   ch ++ "_A_slope_mean", ch ++ "_A_hjorth_mobility", ch ++ "_A_num_peaks",
   ch ++ "_A_auc", ch ++ "_A_stat_variance", ch ++ "_A_stat_skewness",
   ch ++ "_A_stat_kurtosis", ch ++ "_A_hjorth_complexity"]
  ++ (if 0 < min (p3e - p3s) (n - p3s) then
        [ch ++ "_A_erp_p3_peak", ch ++ "_A_erp_p3_latency_ms"] else [])
  ++ (if 0 < min (lppe - lpps) (n - lpps) then
        [ch ++ "_A_erp_lpp_mean", ch ++ "_A_erp_lpp_auc"] else [])

/-- Keys written by the Family B channel body (a function of the channel
name and its sample count; the alpha-peak key is present exactly when
the alpha mask of the length-determined Welch grid is non-empty). -/
def bChanKeys (cfg : Cfg) (ch : String) (n : ℕ) : List String :=
  let nperseg0 := (pyInt (cfg.SAMPLE_RATE * cfg.WELCH_WINDOW_SEC)).toNat
  let nperseg := if n < nperseg0 then n else nperseg0
  let freqs := welchFreqs cfg.SAMPLE_RATE nperseg
  [ch ++ "_B_pow_total"]
  ++ cfg.BANDS.flatMap (fun b =>
      [ch ++ "_B_pow_abs_" ++ lowerStr b.1, ch ++ "_B_pow_rel_" ++ lowerStr b.1])
  ++ (match cfg.BANDS.find? (fun b => b.1 == "Alpha") with
      | some b =>
        if 0 < (freqs.filter
            (fun f => decide (b.2.1 ≤ f) && decide (f < b.2.2))).length
        then [ch ++ "_B_loc_peak_alpha_hz"] else []
      | none => [])
  ++ [ch ++ "_B_loc_sef90_hz", ch ++ "_B_loc_centroid_hz",
      ch ++ "_B_shape_spec_ent", ch ++ "_B_shape_1f_exponent",
      ch ++ "_B_shape_1f_offset", ch ++ "_B_ratio_tbr",
      ch ++ "_B_ratio_engagement", ch ++ "_B_ratio_dar"]

/-- Keys written by the Family C C-1 pass for one channel: the burst key
always, and the per-band variability keys exactly when the spectrogram
call succeeded. -/
def cDynChanKeys (cfg : Cfg) (ch : String) (specOk : Bool) : List String :=
  [ch ++ "_C_dyn_alpha_burst_rate_hz"]
  ++ (if specOk then cfg.BANDS.map (fun b => ch ++ "_C_dyn_var_" ++ lowerStr b.1)
      else [])

/-- Keys written by the Family C C-2 pass for one channel. -/
def cCompKeys (ch : String) : List String :=
  [ch ++ "_C_comp_sampen", ch ++ "_C_comp_higuchi_fd",
   ch ++ "_C_comp_lzc_norm", ch ++ "_C_comp_dfa_exp"]

/-- Keys written by the Family C connectivity block. -/
def cConnKeys (cfg : Cfg) (avail : Bool) : List String :=
  cfg.BANDS.map (fun b => "C_conn_coh_" ++ lowerStr b.1)
  ++ (if avail then cfg.BANDS.flatMap (fun b =>
        ["C_conn_plv_" ++ lowerStr b.1, "C_conn_wpli_" ++ lowerStr b.1])
      else [])

/-- Key accumulation over the channel loop: the channel at index `i`
contributes `kf ch data[i]`. -/
def chanKeysAux (kf : String → List ℚ → List String) (data : List (List ℚ)) :
    List String → ℕ → List String
  | [], _ => []
  | ch :: rest, i =>
    kf ch ((data.get? i).getD []) ++ chanKeysAux kf data rest (i + 1)

/-- Key schema of `get_A_features`. -/
def aKeys (cfg : Cfg) (data : List (List ℚ)) : List String :=
  match cfg.EPOCH_A_TMIN with
  | none => []
  | some tmin =>
    let sfreq := cfg.SAMPLE_RATE
    let zeroIdx := (pyInt (|tmin| * sfreq)).toNat
    chanKeysAux
      (fun ch x => aChanKeys (zeroIdx + (pyInt (1 / 4 * sfreq)).toNat)
        (zeroIdx + (pyInt (2 / 5 * sfreq)).toNat)
        (zeroIdx + (pyInt (2 / 5 * sfreq)).toNat)
        (zeroIdx + (pyInt (1 * sfreq)).toNat) ch x.length)
      data cfg.CHANNELS 0

/-- Key schema of `get_B_features`. -/
def bKeys (cfg : Cfg) (data : List (List ℚ)) : List String :=
  chanKeysAux (fun ch x => bChanKeys cfg ch x.length) data cfg.CHANNELS 0
  ++ (if cfg.CHANNELS.length = 2 then
        ["B_asym_alpha_ln_R-L", "B_asym_beta_ln_R-L"] else [])

/-- The per-channel success bit of the guarded spectrogram call. -/
def specBit (lib : NumLib) (cfg : Cfg) (x : List ℚ) : Bool :=
  (lib.spectrogramPsd x cfg.SAMPLE_RATE (npsOf cfg x) (novOf cfg x)).toOption.isSome

/-- The spectrogram success bits of a window, channel row by channel
row. -/
def specBits (lib : NumLib) (cfg : Cfg) (data : List (List ℚ)) : List Bool :=
  data.map (specBit lib cfg)

/-- Key schema of `get_C_features`. -/
def cKeys (lib : NumLib) (cfg : Cfg) (data : List (List ℚ)) : List String :=
  chanKeysAux (fun ch x => cDynChanKeys cfg ch (specBit lib cfg x))
    data cfg.CHANNELS 0
  ++ chanKeysAux (fun ch _x => cCompKeys ch) data cfg.CHANNELS 0
  ++ (if cfg.CHANNELS.length = 2 then cConnKeys cfg lib.specConnAvail else [])

/-- Key schema of a whole emitted M5 row. -/
def m5Keys (lib : NumLib) (cfg : Cfg) (data : List (List ℚ)) : List String :=
  ["epoch_id", "label"] ++ aKeys cfg data ++ bKeys cfg data ++ cKeys lib cfg data

/-- A two-channel variant of `cfg0` (its Gamma band lies entirely above
the 2 Hz Nyquist of the 4 Hz grid, so its masks are empty). -/
def cfg2 : Cfg :=
  { cfg0 with CHANNELS := ["Fp1", "Fp2"],
              BANDS := [("Delta", 1, 4), ("Alpha", 8, 13), ("Gamma", 30, 40)] }

/-- Modelled from the spec: the claimed per-band asymmetry formula
`ln(power_right + ε) − ln(power_left + ε)`, for comparison with the
features_D implementation. -/
def specAsymFormula (pL pR : ℚ) : FV :=
  .subv (.logv (pR + eps)) (.logv (pL + eps))

/-! ### Helper lemmas -/

theorem m4WindowStarts_fit (nSamples windowSamples stepSamples : ℕ) :
    ∀ t ∈ m4WindowStarts nSamples windowSamples stepSamples,
      t + windowSamples ≤ nSamples := by
  intro t ht
  unfold m4WindowStarts at ht
  rcases List.mem_map.mp ht with ⟨k, hk, rfl⟩
  by_cases hw : windowSamples ≤ nSamples
  · simp only [hw, if_true] at hk
    have hk' : k ≤ (nSamples - windowSamples) / stepSamples :=
      Nat.lt_succ_iff.mp (List.mem_range.mp hk)
    have h1 : k * stepSamples ≤ nSamples - windowSamples := by
      calc k * stepSamples ≤ (nSamples - windowSamples) / stepSamples * stepSamples :=
            Nat.mul_le_mul_right _ hk'
        _ ≤ nSamples - windowSamples := Nat.div_mul_le_self _ _
    omega
  · simp [hw] at hk

theorem except_bind_ok {α β : Type _} (a : α) (f : α → Except Unit β) :
    (Except.ok a >>= f) = f a := rfl

theorem except_bind_error {α β : Type _} (f : α → Except Unit β) :
    ((Except.error () : Except Unit α) >>= f) = Except.error () := rfl

theorem except_pure {α : Type _} (a : α) : (pure a : Except Unit α) = Except.ok a := rfl

theorem pySlice_length (x : List ℚ) (a b : ℕ) :
    (pySlice x a b).length = min (b - a) (x.length - a) := by
  simp [pySlice]

theorem get_A_channel_keys (lib : NumLib) (cfg : Cfg)
    (zi p3s p3e lpps lppe : ℕ) (ch : String) (x : List ℚ) (r : Row)
    (h : get_A_channel lib cfg zi p3s p3e lpps lppe ch x = .ok r) :
    rowKeys r = aChanKeys p3s p3e lpps lppe ch x.length := by
  unfold get_A_channel at h
  by_cases hx : x.isEmpty
  · rw [if_pos hx] at h
    exact Except.noConfusion h
  · rw [if_neg hx] at h
    rcases hsk : lib.skew x with _ | sk <;>
        simp only [hsk, except_bind_error, except_bind_ok] at h
    · exact Except.noConfusion h
    rcases hku : lib.kurtosis x with _ | ku <;>
        simp only [hku, except_bind_error, except_bind_ok] at h
    · exact Except.noConfusion h
    rcases hpk : lib.findPeaksCount x with _ | pk <;>
        simp only [hpk, except_bind_error, except_bind_ok] at h
    · exact Except.noConfusion h
    simp only [except_pure] at h
    injection h with h
    subst h
    simp only [rowKeys, aChanKeys, List.map_append, List.map_cons, List.map_nil,
      apply_ite (List.map (Prod.fst (α := String) (β := FV))), gt_iff_lt,
      pySlice_length]

theorem overChannelsAux_keys (data : List (List ℚ))
    (f : String → List ℚ → Except Unit Row)
    (kf : String → List ℚ → List String)
    (hf : ∀ ch x r, f ch x = .ok r → rowKeys r = kf ch x) :
    ∀ (chs : List String) (i : ℕ) (r : Row),
      overChannelsAux data f chs i = .ok r →
      rowKeys r = chanKeysAux kf data chs i := by
  intro chs
  induction chs with
  | nil =>
    intro i r h
    simp only [overChannelsAux, except_pure] at h
    injection h with h
    subst h
    rfl
  | cons ch rest ih =>
    intro i r h
    simp only [overChannelsAux] at h
    cases hget : data.get? i <;> simp only [hget] at h
    · exact Except.noConfusion h
    rename_i x
    rcases hr1 : f ch x with _ | rv <;>
        simp only [hr1, except_bind_error, except_bind_ok] at h
    · exact Except.noConfusion h
    rcases hr2 : overChannelsAux data f rest (i + 1) with _ | rs <;>
        simp only [hr2, except_bind_error, except_bind_ok] at h
    · exact Except.noConfusion h
    simp only [except_pure] at h
    injection h with h
    subst h
    simp only [chanKeysAux, hget, Option.getD_some, rowKeys, List.map_append]
    rw [← rowKeys, ← rowKeys, hf ch x rv hr1, ih (i + 1) rs hr2]

theorem get_A_features_keys (lib : NumLib) (cfg : Cfg)
    (data : List (List ℚ)) (r : Row)
    (h : get_A_features lib data cfg = .ok r) :
    rowKeys r = aKeys cfg data := by
  unfold get_A_features at h
  unfold aKeys
  cases htm : cfg.EPOCH_A_TMIN <;> simp only [htm] at h ⊢
  · simp only [except_pure] at h
    injection h with h
    subst h
    rfl
  · exact overChannelsAux_keys data _ _
      (fun ch x rr hr => get_A_channel_keys lib cfg _ _ _ _ _ ch x rr hr)
      cfg.CHANNELS 0 r h

theorem welchFreqs_length (s : ℚ) (n : ℕ) :
    (welchFreqs s n).length = n / 2 + 1 := by
  unfold welchFreqs
  rw [List.length_map, List.length_range]

theorem zip_filter_fst_length {α β : Type _} (q : α → Bool) :
    ∀ (l1 : List α) (l2 : List β), l1.length = l2.length →
      ((l1.zip l2).filter (fun p => q p.1)).length = (l1.filter q).length := by
  intro l1
  induction l1 with
  | nil =>
    intro l2 h
    simp
  | cons a t ih =>
    intro l2 h
    cases l2 with
    | nil => simp at h
    | cons b u =>
      simp only [List.zip_cons_cons, List.filter_cons]
      cases hq : q a <;>
        simp [hq, ih u (by simpa using h)]

theorem get_B_channel_keys (lib : NumLib) (cfg : Cfg) (ch : String)
    (x : List ℚ) (r : Row) (bp : List (String × ℚ))
    (hwf : ∀ xx s n, (lib.welchPsd xx s n).length = n / 2 + 1)
    (h : get_B_channel lib cfg ch x = .ok (r, bp)) :
    rowKeys r = bChanKeys cfg ch x.length := by
  simp only [get_B_channel] at h
  simp only [bChanKeys]
  set np := (if x.length < (pyInt (cfg.SAMPLE_RATE * cfg.WELCH_WINDOW_SEC)).toNat
      then x.length else (pyInt (cfg.SAMPLE_RATE * cfg.WELCH_WINDOW_SEC)).toNat)
    with hnp
  set freqs := welchFreqs cfg.SAMPLE_RATE np with hfreqs
  set psd := lib.welchPsd x cfg.SAMPLE_RATE np with hpsd
  rcases hf1 : freqs.get? 1 with _ | f1 <;> simp only [hf1] at h
  · rcases hf0 : freqs.get? 0 with _ | f0 <;>
        simp only [hf0, except_bind_error] at h
    · exact Except.noConfusion h
    · exact Except.noConfusion h
  rcases hf0 : freqs.get? 0 with _ | f0 <;>
      simp only [hf0, except_bind_error, except_bind_ok] at h
  · exact Except.noConfusion h
  rcases hab : cfg.BANDS.find? (fun b => b.1 == "Alpha") with _ | ab <;>
      simp only [hab, except_bind_error, except_bind_ok, except_pure] at h ⊢
  · exact Except.noConfusion h
  have hlen : ((freqs.zip psd).filter
      (fun p => decide (ab.2.1 ≤ p.1) && decide (p.1 < ab.2.2))).length =
      (freqs.filter (fun f => decide (ab.2.1 ≤ f) && decide (f < ab.2.2))).length :=
    zip_filter_fst_length (fun f => decide (ab.2.1 ≤ f) && decide (f < ab.2.2))
      freqs psd (by rw [hfreqs, hpsd, welchFreqs_length, hwf])
  rcases hfo : lib.fooofFit freqs psd cfg.APERIODIC_FIT_RANGE_HZ with _ | ap <;>
      simp only [hfo] at h <;> (
    injection h with h
    rw [Prod.mk.injEq] at h
    obtain ⟨h1, _h2⟩ := h
    subst h1
    simp only [rowKeys, List.map_append, List.map_cons, List.map_nil,
      List.map_flatMap, List.flatMap_map, Function.comp,
      apply_ite (List.map (Prod.fst (α := String) (β := FV))), gt_iff_lt]
    rw [hlen]
    simp [List.append_assoc])


theorem get_B_channelsAux_keys (lib : NumLib) (cfg : Cfg)
    (data : List (List ℚ))
    (hwf : ∀ xx s n, (lib.welchPsd xx s n).length = n / 2 + 1) :
    ∀ (chs : List String) (i : ℕ) (r : Row) (bps : List (List (String × ℚ))),
      get_B_channelsAux lib cfg data chs i = .ok (r, bps) →
      rowKeys r = chanKeysAux (fun ch x => bChanKeys cfg ch x.length) data chs i := by
  intro chs
  induction chs with
  | nil =>
    intro i r bps h
    simp only [get_B_channelsAux, except_pure] at h
    injection h with h
    rw [Prod.mk.injEq] at h
    obtain ⟨h1, _⟩ := h
    subst h1
    rfl
  | cons ch rest ih =>
    intro i r bps h
    simp only [get_B_channelsAux] at h
    cases hget : data.get? i <;> simp only [hget] at h
    · exact Except.noConfusion h
    rename_i x
    rcases hr1 : get_B_channel lib cfg ch x with _ | p1 <;>
        simp only [hr1, except_bind_error, except_bind_ok] at h
    · exact Except.noConfusion h
    rcases hr2 : get_B_channelsAux lib cfg data rest (i + 1) with _ | p2 <;>
        simp only [hr2, except_bind_error, except_bind_ok] at h
    · exact Except.noConfusion h
    simp only [except_pure] at h
    injection h with h
    rw [Prod.mk.injEq] at h
    obtain ⟨h1, _⟩ := h
    subst h1
    simp only [chanKeysAux, hget, Option.getD_some, rowKeys, List.map_append]
    rw [← rowKeys, ← rowKeys,
      get_B_channel_keys lib cfg ch x p1.1 p1.2 hwf (by rw [← hr1]),
      ih (i + 1) p2.1 p2.2 (by rw [← hr2])]

theorem get_B_features_keys (lib : NumLib) (cfg : Cfg)
    (data : List (List ℚ)) (r : Row)
    (hwf : ∀ xx s n, (lib.welchPsd xx s n).length = n / 2 + 1)
    (h : get_B_features lib data cfg = .ok r) :
    rowKeys r = bKeys cfg data := by
  simp only [get_B_features] at h
  unfold bKeys
  rcases haux : get_B_channelsAux lib cfg data cfg.CHANNELS 0 with _ | p <;>
      simp only [haux, except_bind_error, except_bind_ok] at h
  · exact Except.noConfusion h
  by_cases h2 : cfg.CHANNELS.length = 2 <;>
      simp only [h2, if_true, if_false, except_pure] at h ⊢
  · injection h with h
    subst h
    rw [rowKeys, List.map_append, ← rowKeys,
      get_B_channelsAux_keys lib cfg data hwf cfg.CHANNELS 0 p.1 p.2 (by rw [← haux])]
    rfl
  · injection h with h
    subst h
    rw [get_B_channelsAux_keys lib cfg data hwf cfg.CHANNELS 0 p.1 p.2 (by rw [← haux])]
    simp


theorem get_C_dyn_channel_keys (lib : NumLib) (cfg : Cfg) (ch : String)
    (x : List ℚ) :
    rowKeys (get_C_dyn_channel lib cfg ch x) =
      cDynChanKeys cfg ch (specBit lib cfg x) := by
  rcases hs : lib.spectrogramPsd x cfg.SAMPLE_RATE (npsOf cfg x) (novOf cfg x)
    with _ | sxx
  · simp only [get_C_dyn_channel, cDynChanKeys, specBit, hs, Except.toOption]
    rfl
  · simp only [get_C_dyn_channel, cDynChanKeys, specBit, hs, Except.toOption,
      Option.isSome_some, if_true, rowKeys, List.map_append, List.map_cons,
      List.map_nil, List.map_map]
    congr 1
    refine List.map_congr_left (fun b _ => ?_)
    show Prod.fst (if _ then _ else _) = ch ++ "_C_dyn_var_" ++ lowerStr b.1
    rw [apply_ite Prod.fst]
    simp

theorem overChannelsTotal_keys (data : List (List ℚ))
    (f : String → List ℚ → Row) (kf : String → List ℚ → List String)
    (hf : ∀ ch x, rowKeys (f ch x) = kf ch x) :
    ∀ (chs : List String) (i : ℕ) (r : Row),
      overChannelsTotal data f chs i = .ok r →
      rowKeys r = chanKeysAux kf data chs i := by
  intro chs
  induction chs with
  | nil =>
    intro i r h
    simp only [overChannelsTotal, except_pure] at h
    injection h with h
    subst h
    rfl
  | cons ch rest ih =>
    intro i r h
    simp only [overChannelsTotal] at h
    cases hget : data.get? i <;> simp only [hget] at h
    · exact Except.noConfusion h
    rename_i x
    rcases hr2 : overChannelsTotal data f rest (i + 1) with _ | rs <;>
        simp only [hr2, except_bind_error, except_bind_ok, except_pure] at h
    · exact Except.noConfusion h
    injection h with h
    subst h
    simp only [chanKeysAux, hget, Option.getD_some, rowKeys, List.map_append]
    rw [← rowKeys, ← rowKeys, hf ch x, ih (i + 1) rs (by rw [← hr2])]

theorem get_C_conn_keys (lib : NumLib) (cfg : Cfg) (x1 x2 : List ℚ) (r : Row)
    (h : get_C_conn lib cfg x1 x2 = .ok r) :
    rowKeys r = cConnKeys cfg lib.specConnAvail := by
  simp only [get_C_conn] at h
  unfold cConnKeys
  rcases hc : lib.coherenceVals x1 x2 cfg.SAMPLE_RATE
      (min (pyInt (cfg.SAMPLE_RATE * cfg.CONN_WINDOW_SEC)).toNat x1.length)
    with _ | cxy <;>
      simp only [hc, except_bind_error, except_bind_ok, except_pure] at h
  · exact Except.noConfusion h
  injection h with h
  subst h
  rw [rowKeys, List.map_append]
  congr 1
  · rw [List.map_map]
    refine List.map_congr_left (fun b _ => ?_)
    show Prod.fst (if _ then _ else _) = "C_conn_coh_" ++ lowerStr b.1
    rw [apply_ite Prod.fst]
    simp
  · cases ha : lib.specConnAvail
    · simp only [ha, Bool.false_eq_true, if_false]
      rfl
    · simp only [ha, if_true]
      rw [List.map_flatMap]
      refine List.flatMap_congr (fun b _ => ?_)
      rcases lib.plv [x1, x2] cfg.SAMPLE_RATE b.2 with _ | p <;>
        rcases lib.wpli [x1, x2] cfg.SAMPLE_RATE b.2 with _ | w <;> rfl


theorem get_C_features_keys (lib : NumLib) (cfg : Cfg)
    (data : List (List ℚ)) (r : Row)
    (h : get_C_features lib data cfg = .ok r) :
    rowKeys r = cKeys lib cfg data := by
  simp only [get_C_features] at h
  unfold cKeys
  rcases hdyn : overChannelsTotal data (get_C_dyn_channel lib cfg) cfg.CHANNELS 0
    with _ | dynRow <;> simp only [hdyn, except_bind_error, except_bind_ok] at h
  · exact Except.noConfusion h
  rcases hcomp : overChannelsTotal data (get_C_comp_channel lib cfg) cfg.CHANNELS 0
    with _ | compRow <;> simp only [hcomp, except_bind_error, except_bind_ok] at h
  · exact Except.noConfusion h
  have hdynK : rowKeys dynRow = chanKeysAux
      (fun ch x => cDynChanKeys cfg ch (specBit lib cfg x)) data cfg.CHANNELS 0 :=
    overChannelsTotal_keys data _ _
      (fun ch x => get_C_dyn_channel_keys lib cfg ch x) cfg.CHANNELS 0 dynRow hdyn
  have hcompK : rowKeys compRow = chanKeysAux
      (fun ch _x => cCompKeys ch) data cfg.CHANNELS 0 :=
    overChannelsTotal_keys data _ _ (fun ch x => rfl) cfg.CHANNELS 0 compRow hcomp
  by_cases h2 : cfg.CHANNELS.length = 2 <;>
      simp only [h2, if_true, if_false] at h ⊢
  · cases hg0 : data.get? 0 <;> simp only [hg0] at h
    · exact Except.noConfusion h
    cases hg1 : data.get? 1 <;> simp only [hg1] at h
    · exact Except.noConfusion h
    rename_i x1 x2
    rcases hconn : get_C_conn lib cfg x1 x2 with _ | connRow <;>
        simp only [hconn, except_bind_error, except_bind_ok, except_pure] at h
    · exact Except.noConfusion h
    injection h with h
    subst h
    rw [rowKeys, List.map_append, List.map_append, ← rowKeys, ← rowKeys,
      ← rowKeys, hdynK, hcompK, get_C_conn_keys lib cfg x1 x2 connRow hconn]
  · simp only [except_pure] at h
    injection h with h
    subst h
    rw [rowKeys, List.map_append, ← rowKeys, ← rowKeys, hdynK, hcompK]
    simp

theorem m5WindowRow_keys (lib : NumLib) (cfg : Cfg) (i : ℕ) (e : EpochIn)
    (r : Row)
    (hwf : ∀ xx s n, (lib.welchPsd xx s n).length = n / 2 + 1)
    (h : m5WindowRow lib cfg i e = .ok r) :
    rowKeys r = m5Keys lib cfg e.data := by
  simp only [m5WindowRow] at h
  rcases hA : get_A_features lib e.data cfg with _ | a <;>
      simp only [hA, except_bind_error, except_bind_ok] at h
  · exact Except.noConfusion h
  rcases hB : get_B_features lib e.data cfg with _ | b <;>
      simp only [hB, except_bind_error, except_bind_ok] at h
  · exact Except.noConfusion h
  rcases hC : get_C_features lib e.data cfg with _ | c <;>
      simp only [hC, except_bind_error, except_bind_ok, except_pure] at h
  · exact Except.noConfusion h
  injection h with h
  subst h
  unfold m5Keys
  simp only [rowKeys, List.map_append, List.map_cons, List.map_nil]
  rw [← rowKeys, ← rowKeys, ← rowKeys, get_A_features_keys lib cfg e.data a hA,
    get_B_features_keys lib cfg e.data b hwf hB,
    get_C_features_keys lib cfg e.data c hC]

theorem chanKeysAux_congr (kf1 kf2 : String → List ℚ → List String)
    (data1 data2 : List (List ℚ))
    (h : ∀ i ch, kf1 ch ((data1.get? i).getD []) = kf2 ch ((data2.get? i).getD [])) :
    ∀ (chs : List String) (i : ℕ),
      chanKeysAux kf1 data1 chs i = chanKeysAux kf2 data2 chs i := by
  intro chs
  induction chs with
  | nil => intro i; rfl
  | cons ch rest ih =>
    intro i
    simp only [chanKeysAux]
    rw [h i ch, ih (i + 1)]

theorem lenAt_eq (data1 data2 : List (List ℚ))
    (h : data1.map List.length = data2.map List.length) (i : ℕ) :
    ((data1.get? i).getD []).length = ((data2.get? i).getD []).length := by
  have h1 := congrArg (fun l => l.get? i) h
  simp only [List.get?_map] at h1
  cases hg1 : data1.get? i <;> cases hg2 : data2.get? i <;>
      rw [hg1, hg2] at h1 <;>
      first
      | rfl
      | simpa using h1

theorem specBit_at_eq (lib : NumLib) (cfg : Cfg) (data1 data2 : List (List ℚ))
    (hb : specBits lib cfg data1 = specBits lib cfg data2) (i : ℕ) :
    specBit lib cfg ((data1.get? i).getD []) =
      specBit lib cfg ((data2.get? i).getD []) := by
  have h1 := congrArg (fun l => l.get? i) hb
  simp only [specBits, List.get?_map] at h1
  cases hg1 : data1.get? i <;> cases hg2 : data2.get? i <;>
      rw [hg1, hg2] at h1 <;>
      first
      | rfl
      | simpa using h1

/-! ## Claim C5: window count of the 60 s / 250 Hz / 5 s / no-overlap scenario -/

/-- C5 counterexample.  The claim expects exactly 12 windows.  In the
driver's inline segmenter (`main.py`,
`range(0, len(data) - window_samples, step_samples)` with
`len(data) = 60 * 250 = 15000`, `window_samples = int(5.0 * 250) = 1250`,
`step_samples = 1250 - int(0.0 * 250) = 1250`) the exclusive stop
discards the start offset 13750, whose window ends exactly at the
recording length, so only 11 windows are emitted. -/
theorem C5_counterexample :
    (mainWindowStarts 15000 1250 1250).length = 11 ∧
    (mainWindowStarts 15000 1250 1250).length ≠ 12 ∧
    13750 ∉ mainWindowStarts 15000 1250 1250 ∧
    13750 + 1250 ≤ 15000 := by
  refine ⟨by decide, by decide, by decide, by decide⟩

/-- C5 (amended): under the spec's stride rule — keep every window whose
end does not exceed the recording length — the scenario yields 12
windows, and the `m4_epoch` segmenter (`mne.make_fixed_length_epochs`)
produces exactly those 12; the driver's inline segmenter in `main.py`
instead stops strictly before `len - window` and so emits 11, dropping
the final exactly-fitting window. -/
theorem C5_amended :
    (m4WindowStarts 15000 1250 1250).length = 12 ∧
    13750 ∈ m4WindowStarts 15000 1250 1250 ∧
    (∀ t ∈ m4WindowStarts 15000 1250 1250, t + 1250 ≤ 15000) ∧
    (mainWindowStarts 15000 1250 1250).length = 11 := by
  refine ⟨by decide, by decide, by decide, by decide⟩

/-! ## Claim C9: determinism of the extraction path -/

/-- C9: the Segmenter-plus-Aggregator path is a deterministic function of
the recording, the configuration and the (deterministic) numeric
libraries: its result does not depend on the ambient randomness available
to the process, so re-running with the same inputs yields bit-identical
rows. -/
theorem C9_no_hidden_randomness (env1 env2 : Env) (h : env1.lib = env2.lib)
    (ch1 ch2 : List ℚ) (wsec osec : ℚ) (sr : ℕ) (thrUv : ℚ) (m : MetaData)
    (epochs : List EpochIn) (cfg : Cfg) :
    mainProcessRecordingEnv env1 ch1 ch2 wsec osec sr thrUv m =
      mainProcessRecordingEnv env2 ch1 ch2 wsec osec sr thrUv m ∧
    extract_features_from_epochs env1.lib epochs cfg =
      extract_features_from_epochs env2.lib epochs cfg := by
  constructor
  · unfold mainProcessRecordingEnv
    rw [h]
  · rw [h]

/-- Witness for C9: two environments sharing the libraries but holding
different random seeds produce identical outputs on a concrete
recording. -/
theorem C9_no_hidden_randomness_witness :
    mainProcessRecordingEnv ⟨lib0, 0⟩ [0, 1, 0, 1, 0, 1] [0, 0, 0, 0, 0, 0]
        2 0 1 100 ⟨"S", 1, 1⟩ =
      mainProcessRecordingEnv ⟨lib0, 37⟩ [0, 1, 0, 1, 0, 1] [0, 0, 0, 0, 0, 0]
        2 0 1 100 ⟨"S", 1, 1⟩ ∧
    extract_features_from_epochs (Env.mk lib0 0).lib [⟨[[0, 0]], 1⟩] cfg0 =
      extract_features_from_epochs (Env.mk lib0 37).lib [⟨[[0, 0]], 1⟩] cfg0 :=
  C9_no_hidden_randomness ⟨lib0, 0⟩ ⟨lib0, 37⟩ rfl [0, 1, 0, 1, 0, 1]
    [0, 0, 0, 0, 0, 0] 2 0 1 100 ⟨"S", 1, 1⟩ [⟨[[0, 0]], 1⟩] cfg0

/-! ## Claim C10: all-NaN full-schema row on zero or all-failing epochs -/

/-- C10: when the recording-level extractor receives zero epochs, or when
the per-epoch computation raises for every epoch, it returns the single
`_return_nan_row`: Subject/Condition/Trial_No preserved, the full fixed
103-column KPI schema present, every KPI value NaN — not zero rows and
not an exception. -/
theorem C10_all_nan_row (lib : NumLib) (epochsData : List (List (List ℚ)))
    (sr : ℕ) (m : MetaData)
    (h : ∀ e ∈ epochsData, epochKpis lib sr e = .error ()) :
    extract_features lib epochsData sr m = return_nan_row m ∧
    (return_nan_row m).meta = m ∧
    rowKeys (return_nan_row m).kpis = all_kpi_columns ∧
    ∀ p ∈ (return_nan_row m).kpis, p.2 = FV.nan := by
  refine ⟨?_, rfl, ?_, ?_⟩
  · unfold extract_features
    by_cases hl : epochsData.length = 0
    · simp [hl]
    · have hnil : epochsData.filterMap (fun e => (epochKpis lib sr e).toOption) = [] := by
        refine List.filterMap_eq_nil_iff.mpr (fun e he => ?_)
        rw [h e he]
        rfl
      simp [hl, hnil]
  · show List.map Prod.fst (all_kpi_columns.map (fun c => (c, FV.nan))) = _
    rw [List.map_map]
    exact List.map_id'' (fun _ => rfl) _
  · intro p hp
    simp only [return_nan_row, List.mem_map] at hp
    rcases hp with ⟨c, _, rfl⟩
    rfl

/-- Witness for C10: a concrete recording whose only epoch fails (its
channels are empty, so `compute_time_features` raises) produces the
all-NaN metadata row. -/
theorem C10_all_nan_row_witness :
    extract_features lib0 [[[], []]] 1 ⟨"S", 1, 2⟩ = return_nan_row ⟨"S", 1, 2⟩ ∧
    (return_nan_row (⟨"S", 1, 2⟩ : MetaData)).meta = ⟨"S", 1, 2⟩ ∧
    rowKeys (return_nan_row (⟨"S", 1, 2⟩ : MetaData)).kpis = all_kpi_columns ∧
    ∀ p ∈ (return_nan_row (⟨"S", 1, 2⟩ : MetaData)).kpis, p.2 = FV.nan :=
  C10_all_nan_row lib0 [[[], []]] 1 ⟨"S", 1, 2⟩ (by decide)

/-! ## Claim C4: fewer than 3 surviving windows -/

/-- C4 counterexample.  A recording of 5 samples at 1 Hz segments into
two 2-second windows — fewer than the 3 the viability guard requires —
yet the driver emits one all-NaN metadata row for the recording (103 NaN
KPI entries), not zero output rows. -/
theorem C4_counterexample :
    mainProcessRecording lib0 [0, 0, 0, 0, 0] [0, 0, 0, 0, 0] 2 0 1 100
        ⟨"S", 1, 1⟩ = return_nan_row ⟨"S", 1, 1⟩ ∧
    (return_nan_row (⟨"S", 1, 1⟩ : MetaData)).kpis.length = 103 ∧
    (return_nan_row (⟨"S", 1, 1⟩ : MetaData)).kpis ≠ [] := by
  refine ⟨by decide, by decide, by decide⟩

/-- C4 (amended): when fewer than 3 windows survive rejection, the core
cleaner signals the skip by returning `none` — no rows, no exception —
while the driver instead contributes a single all-NaN metadata row (not
zero rows) for the recording; neither path raises. -/
theorem C4_amended (epochs : List (List (List ℚ))) (thr : ℚ)
    (lib : NumLib) (ch1 ch2 : List ℚ) (wsec osec : ℚ) (sr : ℕ)
    (thrUv : ℚ) (m : MetaData)
    (hclean : (epochs.filter
      (fun w => decide (¬ ∃ chx ∈ w, thr * (1 / 10 ^ 6) < p2pQ chx))).length < 3)
    (hne : (mainSegment ch1 ch2 (pyInt (wsec * sr)).toNat
      ((pyInt (wsec * sr)).toNat - (pyInt (osec * sr)).toNat)).isEmpty = false)
    (hkept : ((mainSegment ch1 ch2 (pyInt (wsec * sr)).toNat
        ((pyInt (wsec * sr)).toNat - (pyInt (osec * sr)).toNat)).filter
      (fun p => decide (¬ (thrUv < p2pQ p.1 ∨ thrUv < p2pQ p.2)))).length < 3) :
    clean_epochs epochs thr = none ∧
    mainProcessRecording lib ch1 ch2 wsec osec sr thrUv m = return_nan_row m := by
  constructor
  · unfold clean_epochs
    simp only []
    rw [if_pos hclean]
  · unfold mainProcessRecording
    simp only [hne, Bool.false_eq_true, if_false]
    rw [if_pos hkept]

/-- Witness for C4 (amended) at a concrete non-viable recording. -/
theorem C4_amended_witness :
    clean_epochs [[[0, 200]], [[0, 0]]] 100 = none ∧
    mainProcessRecording lib0 [0, 0, 0, 0, 0] [0, 0, 0, 0, 0] 2 0 1 100
      ⟨"S", 2, 7⟩ = return_nan_row ⟨"S", 2, 7⟩ :=
  C4_amended [[[0, 200]], [[0, 0]]] 100 lib0 [0, 0, 0, 0, 0] [0, 0, 0, 0, 0]
    2 0 1 100 ⟨"S", 2, 7⟩ (by decide) (by decide) (by decide)

/-! ## Claim C1: NaN policy of the Feature Vector -/

/-- C1 counterexample.  With the 4 Hz grid `[0, 1, 2]`, the Alpha band
mask is empty: features_B stores the literal `0.0` for the absolute
band power (`abs_powers[band_name] = 0.0`), computes the relative power
from it, and omits the `_B_loc_peak_alpha_hz` key altogether; features_C
stores `0.0` for the coherence of an empty band.  The claim requires NaN
and forbids both the omission and the zero substitution. -/
theorem C1_counterexample :
    (get_B_features lib0 [List.replicate 8 1] cfg0).toOption.bind
        (fun r => rlookup r "Fp1_B_pow_abs_alpha") = some (FV.val 0) ∧
    (get_B_features lib0 [List.replicate 8 1] cfg0).toOption.map
        (fun r => decide ("Fp1_B_loc_peak_alpha_hz" ∈ rowKeys r)) = some false ∧
    (get_C_features lib0 [List.replicate 8 1, List.replicate 8 1] cfg2).toOption.bind
        (fun r => rlookup r "C_conn_coh_gamma") = some (FV.val 0) ∧
    FV.val 0 ≠ FV.nan := by
  refine ⟨by decide, by decide, by decide, by decide⟩

/-- C1 (amended): Family D does follow the claimed policy — when its
computation fails, the full fixed 11-key dictionary is produced with
every value NaN (and its key set is always a permutation of those 11
keys) — whereas Families B and C zero-substitute empty-band power and
coherence and Family B omits the alpha-peak key (see the
counterexample). -/
theorem C1_amended (lib : NumLib) (x1 x2 : List ℚ) (sr : ℚ)
    (h : lib.coherenceVals x1 x2 sr (pyInt (sr * 2)).toNat = .error ()) :
    compute_cross_features lib x1 x2 sr = allNanD ∧
    (rowKeys allNanD).Perm dCols ∧
    ∀ e ∈ allNanD, e.2 = FV.nan := by
  refine ⟨?_, by decide, by decide⟩
  unfold compute_cross_features
  simp only [h]
  rfl

/-- Witness for C1 (amended): a concrete failing coherence call. -/
theorem C1_amended_witness :
    compute_cross_features libCohFail [1, 2] [3, 4] 4 = allNanD ∧
    (rowKeys allNanD).Perm dCols ∧
    ∀ e ∈ allNanD, e.2 = FV.nan :=
  C1_amended libCohFail [1, 2] [3, 4] 4 (by decide)

/-! ## Claim C3: per-family failure isolation in the M5 manager -/

/-- C3 counterexample.  A window for which Family A raises (here via
`scipy.stats.skew`) while Families B and C would both succeed is dropped
entirely by the manager: the output contains no row for it, instead of a
row with Family A's keys set to NaN. -/
theorem C3_counterexample :
    get_A_features libAfail [List.replicate 8 1] cfg0 = .error () ∧
    (get_B_features libAfail [List.replicate 8 1] cfg0).toOption.isSome = true ∧
    (get_C_features libAfail [List.replicate 8 1] cfg0).toOption.isSome = true ∧
    extract_features_from_epochs libAfail [⟨[List.replicate 8 1], 1⟩] cfg0 = [] := by
  refine ⟨by decide, by decide, by decide, by decide⟩

/-- C3 (amended): the manager's `try` wraps the three families jointly:
an exception anywhere (in particular in Family A) drops the whole window
from the output without raising to the caller, and a window on which no
family raises is emitted as its accumulated row. -/
theorem C3_amended (lib lib2 : NumLib) (cfg cfg2a : Cfg) (e e2 : EpochIn)
    (r : Row)
    (hA : get_A_features lib e.data cfg = Except.error ())
    (hok : m5WindowRow lib2 cfg2a 0 e2 = .ok r) :
    extract_features_from_epochs lib [e] cfg = [] ∧
    extract_features_from_epochs lib2 [e2] cfg2a = [r] := by
  have hbody : m5WindowRow lib cfg 0 e = .error () := by
    unfold m5WindowRow
    rw [hA]
    rfl
  constructor
  · unfold extract_features_from_epochs
    simp [List.enum, List.enumFrom, hbody]
  · unfold extract_features_from_epochs
    simp [List.enum, List.enumFrom, hok]

/-- Witness for C3 (amended): one window with an empty channel (Family A
raises at `np.max`) is dropped; one well-formed window is emitted. -/
theorem C3_amended_witness :
    extract_features_from_epochs lib0 [⟨[[]], 1⟩] cfg0 = [] ∧
    extract_features_from_epochs lib0 [⟨[List.replicate 8 1], 2⟩] cfg0 =
      [(m5WindowRow lib0 cfg0 0 ⟨[List.replicate 8 1], 2⟩).toOption.getD []] :=
  C3_amended lib0 lib0 cfg0 cfg0 ⟨[[]], 1⟩ ⟨[List.replicate 8 1], 2⟩
    ((m5WindowRow lib0 cfg0 0 ⟨[List.replicate 8 1], 2⟩).toOption.getD [])
    (by decide) (by decide)

/-! ## Claim C6: relative band powers sum to 100 % -/

/-- C6 counterexample.  For a window whose PSD is identically zero (what
Welch returns for a constant channel after detrending), every absolute
band power is 0, so every relative power is `0 / (0 + ε) · 100 = 0` and
the per-channel sum over the configured bands is 0 — not within any
tolerance below 100 of 100 %. -/
theorem C6_counterexample :
    (get_B_features libZeroPsd [List.replicate 8 1] cfg0).toOption.bind
        (fun r => rlookup r "Fp1_B_pow_rel_delta") = some (FV.val 0) ∧
    (get_B_features libZeroPsd [List.replicate 8 1] cfg0).toOption.bind
        (fun r => rlookup r "Fp1_B_pow_rel_alpha") = some (FV.val 0) ∧
    ¬ |(0 : ℚ) + 0 - 100| ≤ 1 := by
  refine ⟨by decide, by decide, by decide⟩

theorem sum_map_mulc (l : List ℚ) (c : ℚ) :
    (l.map (fun a => a * c)).sum = l.sum * c := by
  induction l with
  | nil => simp
  | cons a t ih => simp [ih, add_mul]

/-- C6 (amended): the relative band powers `rel_p a T` over any list of
non-negative absolute powers with total `T` sum to `100·T/(T+ε)`, which
always lies in `[0, 100]` and is within `10⁻³` of 100 whenever the total
power is at least `10⁻⁵`; for zero total power the sum is 0 (see the
counterexample). -/
theorem C6_amended (l : List ℚ)
    (hT : 1 / 100000 ≤ l.sum) :
    |(l.map (fun a => rel_p a l.sum)).sum - 100| ≤ 1 / 1000 ∧
    0 ≤ (l.map (fun a => rel_p a l.sum)).sum ∧
    (l.map (fun a => rel_p a l.sum)).sum ≤ 100 := by
  have heps : (0 : ℚ) < eps := by norm_num [eps]
  have hT0 : (0 : ℚ) < l.sum := lt_of_lt_of_le (by norm_num) hT
  have hTpos : (0 : ℚ) < l.sum + eps := by linarith
  have hmap : (l.map (fun a => rel_p a l.sum)).sum =
      l.sum * (100 / (l.sum + eps)) := by
    have hfun : (fun a => rel_p a l.sum) = (fun a => a * (100 / (l.sum + eps))) := by
      funext a
      unfold rel_p
      ring
    rw [hfun, sum_map_mulc]
  rw [hmap]
  have hub : l.sum * (100 / (l.sum + eps)) ≤ 100 := by
    rw [mul_div_assoc', div_le_iff₀ hTpos]
    nlinarith
  have hlb : 100 - 1 / 1000 ≤ l.sum * (100 / (l.sum + eps)) := by
    rw [mul_div_assoc', le_div_iff₀ hTpos]
    have he : eps = 1 / 10 ^ 10 := rfl
    rw [he] at *
    nlinarith
  refine ⟨?_, ?_, hub⟩
  · rw [abs_le]
    constructor <;> linarith
  · positivity

/-- Witness for C6 (amended) at the absolute powers `[1, 2]`. -/
theorem C6_amended_witness :
    |(([1, 2] : List ℚ).map (fun a => rel_p a ([1, 2] : List ℚ).sum)).sum - 100| ≤ 1 / 1000 ∧
    0 ≤ (([1, 2] : List ℚ).map (fun a => rel_p a ([1, 2] : List ℚ).sum)).sum ∧
    (([1, 2] : List ℚ).map (fun a => rel_p a ([1, 2] : List ℚ).sum)).sum ≤ 100 :=
  C6_amended [1, 2] (by decide)

/-! ## Claim C7: constant signals under the epsilon guards -/

theorem qmean_replicate (n : ℕ) (c : ℚ) (hn : n ≠ 0) :
    qmean (List.replicate n c) = c := by
  unfold qmean
  rw [List.sum_replicate, List.length_replicate, nsmul_eq_mul, mul_div_assoc]
  rw [mul_div_cancel₀ c (by exact_mod_cast hn)]

theorem qvar_replicate (n : ℕ) (c : ℚ) : qvar (List.replicate n c) = 0 := by
  cases n with
  | zero => simp [qvar, qmean]
  | succ m =>
    unfold qvar
    rw [qmean_replicate (m + 1) c (Nat.succ_ne_zero m), List.map_replicate]
    simp

theorem diffL_replicate (n : ℕ) (c : ℚ) :
    diffL (List.replicate n c) = List.replicate (n - 1) 0 := by
  induction n with
  | zero => rfl
  | succ m ih =>
    cases m with
    | zero => rfl
    | succ k =>
      have h2 : List.replicate (k + 2) c = c :: c :: List.replicate k c := by
        simp [List.replicate_succ]
      have h1 : List.replicate (k + 1) c = c :: List.replicate k c := by
        simp [List.replicate_succ]
      rw [h2, diffL, ← h1, ih]
      simp [List.replicate_succ]

/-- C7: on a constant channel, the epsilon-guarded Hjorth computations
are defined and finite: the stored mobility is literally `sqrt 0`,
evaluating to 0, and complexity evaluates to 0 — no exception, no
infinity, because every divisor carries the additive epsilon (all
divisors are positive whenever the band powers are non-negative); the
epsilon-guarded band ratios likewise evaluate to the finite value 0 on
the zero band powers a constant channel produces. -/
theorem C7_constant_epsilon_guard (n : ℕ) (c : ℚ)
    (pTheta pAlpha pBeta : ℚ)
    (h1 : 0 ≤ pTheta) (h2 : 0 ≤ pAlpha) (h3 : 0 ≤ pBeta) :
    hjorth_mobility (List.replicate n c) = FV.sqrtv 0 ∧
    (hjorth_mobility (List.replicate n c)).eval = some 0 ∧
    (hjorth_complexity (List.replicate n c)).eval = some 0 ∧
    0 < pBeta + eps ∧ 0 < pAlpha + pTheta + eps ∧ 0 < pAlpha + eps ∧
    ratioTbr 0 0 = 0 ∧ ratioEngagement 0 0 0 = 0 ∧ ratioDar 0 0 = 0 := by
  have heps : (0 : ℚ) < eps := by norm_num [eps]
  have hmob : hjorth_mobility (List.replicate n c) = FV.sqrtv 0 := by
    unfold hjorth_mobility
    rw [diffL_replicate, qvar_replicate, qvar_replicate, zero_div]
  have hcplx : hjorth_complexity (List.replicate n c) = FV.divv (FV.sqrtv 0)
      (FV.addv (FV.sqrtv 0) (FV.val eps)) := by
    unfold hjorth_complexity
    rw [diffL_replicate, diffL_replicate, qvar_replicate, qvar_replicate,
      qvar_replicate, zero_div]
  refine ⟨hmob, ?_, ?_, by linarith, by linarith, by linarith, ?_, ?_, ?_⟩
  · rw [hmob]
    simp [FV.eval]
  · rw [hcplx]
    simp [FV.eval]
  · unfold ratioTbr
    rw [zero_add, zero_div]
  · unfold ratioEngagement
    rw [zero_add, zero_add, zero_div]
  · unfold ratioDar
    rw [zero_add, zero_div]

/-- Witness for C7 at a concrete constant channel of length 5. -/
theorem C7_constant_epsilon_guard_witness :
    hjorth_mobility (List.replicate 5 (7 / 2)) = FV.sqrtv 0 ∧
    (hjorth_mobility (List.replicate 5 (7 / 2))).eval = some 0 ∧
    (hjorth_complexity (List.replicate 5 (7 / 2))).eval = some 0 ∧
    0 < (4 : ℚ) + eps ∧ 0 < (3 : ℚ) + (2 : ℚ) + eps ∧ 0 < (3 : ℚ) + eps ∧
    ratioTbr 0 0 = 0 ∧ ratioEngagement 0 0 0 = 0 ∧ ratioDar 0 0 = 0 :=
  C7_constant_epsilon_guard 5 (7 / 2) 2 3 4 (by decide) (by decide) (by decide)

/-! ## Claim C8: cross-channel power asymmetry -/

/-- C8 counterexample.  In features_D the per-band asymmetry is
`np.log(p2) − np.log(p1)` behind a positivity guard and no epsilon: for
a window with zero delta-band power in both channels it stores NaN,
whereas the claimed formula `ln(p_R+ε) − ln(p_L+ε)` evaluates to 0. -/
theorem C8_counterexample :
    rlookup (compute_cross_features libZeroPsd (List.replicate 8 1)
      (List.replicate 8 1) 4) "asym_power_delta" = some FV.nan ∧
    d_asym 0 0 = FV.nan ∧
    specAsymFormula 0 0 ≠ FV.nan ∧
    (specAsymFormula 0 0).eval = some 0 := by
  refine ⟨by decide, by decide, by decide, ?_⟩
  simp [specAsymFormula, FV.eval]

/-- C8 (amended): Family B's asymmetry block is emitted once per window
with exactly its two keys and is computed as
`safe_log(p_R) − safe_log(p_L)` = `ln(|p_R|+ε) − ln(|p_L|+ε)`, so a
window whose channels carry identical signals (hence identical band
powers) yields exactly 0 for both alpha and beta; Family D's per-band
asymmetry `ln(p2) − ln(p1)` also yields 0 for identical positive powers
(and NaN, not 0, when a power is non-positive — see the
counterexample). -/
theorem C8_amended (p : ℚ) (hp : 0 < p) (bp : List (String × ℚ)) :
    rowKeys (asymBlock bp bp) = ["B_asym_alpha_ln_R-L", "B_asym_beta_ln_R-L"] ∧
    (∀ e ∈ asymBlock bp bp, e.2.eval = some 0) ∧
    (d_asym p p).eval = some 0 := by
  refine ⟨rfl, ?_, ?_⟩
  · intro e he
    have hzero : ∀ q : ℚ, (b_asym q q).eval = some 0 := by
      intro q
      simp [b_asym, safe_log, FV.eval]
    rcases (by simpa [asymBlock] using he :
        e = ("B_asym_alpha_ln_R-L", b_asym (bpGet bp "Alpha") (bpGet bp "Alpha")) ∨
        e = ("B_asym_beta_ln_R-L", b_asym (bpGet bp "Beta") (bpGet bp "Beta"))) with
      rfl | rfl
    · exact hzero _
    · exact hzero _
  · unfold d_asym
    rw [if_pos ⟨hp, hp⟩]
    simp [FV.eval]

/-- Witness for C8 (amended) at power 2 and a concrete band-power
table. -/
theorem C8_amended_witness :
    rowKeys (asymBlock [("Alpha", 3), ("Beta", 5)] [("Alpha", 3), ("Beta", 5)]) =
      ["B_asym_alpha_ln_R-L", "B_asym_beta_ln_R-L"] ∧
    (∀ e ∈ asymBlock [("Alpha", 3), ("Beta", 5)] [("Alpha", 3), ("Beta", 5)],
      e.2.eval = some 0) ∧
    (d_asym 2 2).eval = some 0 :=
  C8_amended 2 (by decide) [("Alpha", 3), ("Beta", 5)]

/-! ## Claim C2: invariance of the Feature Vector key set -/

/-- C2 counterexample.  Two windows under the same configuration, where
the Family C spectrogram call raises on the first window's content and
succeeds on the second's: both windows are emitted (the handler catches
the exception), but the handler writes no `_C_dyn_var_*` keys, so the
two Feature Vectors have different key sets. -/
theorem C2_counterexample :
    (extract_features_from_epochs libSpecFail
      [⟨[List.replicate 8 1], 1⟩, ⟨[List.replicate 8 0], 1⟩] cfg0).length = 2 ∧
    "Fp1_C_dyn_var_delta" ∉ rowKeys ((extract_features_from_epochs libSpecFail
      [⟨[List.replicate 8 1], 1⟩, ⟨[List.replicate 8 0], 1⟩] cfg0).getD 0 []) ∧
    "Fp1_C_dyn_var_delta" ∈ rowKeys ((extract_features_from_epochs libSpecFail
      [⟨[List.replicate 8 1], 1⟩, ⟨[List.replicate 8 0], 1⟩] cfg0).getD 1 []) ∧
    rowKeys ((extract_features_from_epochs libSpecFail
        [⟨[List.replicate 8 1], 1⟩, ⟨[List.replicate 8 0], 1⟩] cfg0).getD 0 []) ≠
      rowKeys ((extract_features_from_epochs libSpecFail
        [⟨[List.replicate 8 1], 1⟩, ⟨[List.replicate 8 0], 1⟩] cfg0).getD 1 []) := by
  refine ⟨by decide, by decide, by decide, by decide⟩

/-- C2 (amended): two windows of the same configuration, the same
per-channel sample counts, and the same spectrogram success bits, both
of which are emitted, carry identical key sets no matter what signal
values and library results they contain. -/
theorem C2_amended (lib : NumLib) (cfg : Cfg) (e1 e2 : EpochIn) (i1 i2 : ℕ)
    (r1 r2 : Row)
    (hwf : ∀ x s n, (lib.welchPsd x s n).length = n / 2 + 1)
    (hshape : e1.data.map List.length = e2.data.map List.length)
    (hspec : specBits lib cfg e1.data = specBits lib cfg e2.data)
    (h1 : m5WindowRow lib cfg i1 e1 = .ok r1)
    (h2 : m5WindowRow lib cfg i2 e2 = .ok r2) :
    rowKeys r1 = rowKeys r2 := by
  rw [m5WindowRow_keys lib cfg i1 e1 r1 hwf h1,
    m5WindowRow_keys lib cfg i2 e2 r2 hwf h2]
  have hlen := lenAt_eq e1.data e2.data hshape
  have hbit := specBit_at_eq lib cfg e1.data e2.data hspec
  have hAk : aKeys cfg e1.data = aKeys cfg e2.data := by
    unfold aKeys
    cases htm : cfg.EPOCH_A_TMIN with
    | none => rfl
    | some tmin =>
      exact chanKeysAux_congr
        (fun ch x => aChanKeys
          ((pyInt (|tmin| * cfg.SAMPLE_RATE)).toNat + (pyInt (1 / 4 * cfg.SAMPLE_RATE)).toNat)
          ((pyInt (|tmin| * cfg.SAMPLE_RATE)).toNat + (pyInt (2 / 5 * cfg.SAMPLE_RATE)).toNat)
          ((pyInt (|tmin| * cfg.SAMPLE_RATE)).toNat + (pyInt (2 / 5 * cfg.SAMPLE_RATE)).toNat)
          ((pyInt (|tmin| * cfg.SAMPLE_RATE)).toNat + (pyInt (1 * cfg.SAMPLE_RATE)).toNat)
          ch x.length) _ e1.data e2.data
        (fun i ch => show aChanKeys _ _ _ _ ch ((e1.data.get? i).getD []).length =
            aChanKeys _ _ _ _ ch ((e2.data.get? i).getD []).length from by
          rw [hlen i]) cfg.CHANNELS 0
  have hBk : bKeys cfg e1.data = bKeys cfg e2.data := by
    unfold bKeys
    rw [chanKeysAux_congr (fun ch x => bChanKeys cfg ch x.length)
      (fun ch x => bChanKeys cfg ch x.length) e1.data e2.data
      (fun i ch => show bChanKeys cfg ch ((e1.data.get? i).getD []).length =
          bChanKeys cfg ch ((e2.data.get? i).getD []).length from by
        rw [hlen i]) cfg.CHANNELS 0]
  have hCk : cKeys lib cfg e1.data = cKeys lib cfg e2.data := by
    unfold cKeys
    rw [chanKeysAux_congr
        (fun ch x => cDynChanKeys cfg ch (specBit lib cfg x))
        (fun ch x => cDynChanKeys cfg ch (specBit lib cfg x))
        e1.data e2.data
        (fun i ch => show cDynChanKeys cfg ch (specBit lib cfg ((e1.data.get? i).getD [])) =
            cDynChanKeys cfg ch (specBit lib cfg ((e2.data.get? i).getD [])) from by
          rw [hbit i]) cfg.CHANNELS 0,
      chanKeysAux_congr (fun ch _x => cCompKeys ch) (fun ch _x => cCompKeys ch)
        e1.data e2.data (fun i ch => rfl) cfg.CHANNELS 0]
  unfold m5Keys
  rw [hAk, hBk, hCk]

/-- Witness for C2 (amended): two same-shape windows with different
content under `lib0`/`cfg0` have identical key sets. -/
theorem C2_amended_witness :
    rowKeys ((m5WindowRow lib0 cfg0 0 ⟨[List.replicate 8 1], 1⟩).toOption.getD []) =
      rowKeys ((m5WindowRow lib0 cfg0 1 ⟨[List.replicate 8 5], 2⟩).toOption.getD []) :=
  C2_amended lib0 cfg0 ⟨[List.replicate 8 1], 1⟩ ⟨[List.replicate 8 5], 2⟩ 0 1
    ((m5WindowRow lib0 cfg0 0 ⟨[List.replicate 8 1], 1⟩).toOption.getD [])
    ((m5WindowRow lib0 cfg0 1 ⟨[List.replicate 8 5], 2⟩).toOption.getD [])
    (fun x s n => by simp [lib0]) (by decide) (by decide) (by decide) (by decide)

end EegKpi
